import Mathlib

/-!
Verification of the `dev-browser` DOM extraction/serialization subsystem.

This file gives a shallow embedding of the `dom/` package
(`types.ts`, `interactive.ts`, `visibility.ts`, `filters.ts`,
`serialize.ts`, `compound.ts`, and the post-extraction pipeline of
`index.ts`) and proves properties of the embedded definitions.

Modelling conventions:
- JavaScript numbers are modelled as exact rationals (`ℚ`); `NaN` is
  modelled as `none` in an `Option ℚ` wherever a `parseFloat`/`parseInt`
  result can be `NaN`, with the JS comparison semantics (`NaN < x` is
  false, etc.) written out at each use site.
- `Record<string, string>` attribute maps are modelled as association
  lists with first-match lookup; `Map` objects whose keys are only ever
  fresh are modelled as association lists in insertion order.
- Optional / defaulted function parameters are modelled as explicit
  `Option` parameters plus a wrapper applying the defaults.
-/

attribute [local semireducible] Rat.mul Rat.add Rat.inv Rat.sub

namespace DevBrowser

/-- Enumeration of the three node kinds carried by `RawDOMNode.nodeType`. -/
inductive NodeType where
  | ELEMENT_NODE
  | TEXT_NODE
  | DOCUMENT_FRAGMENT_NODE
deriving DecidableEq

/-- Bounding rectangle in document coordinates (types.ts `BoundingRect`). -/
structure BoundingRect where
  x : ℚ
  y : ℚ
  width : ℚ
  height : ℚ
deriving DecidableEq

/-- Computed styles subset (types.ts `ComputedStyles`). -/
structure ComputedStyles where
  display : String
  visibility : String
  opacity : String
  cursor : String
  backgroundColor : String
  overflow : String
  overflowX : String
  overflowY : String
  pointerEvents : String
deriving DecidableEq

/-- The scalar (non-recursive) fields of types.ts `RawDOMNode`.  The
recursive fields `children`, `shadowRoots` and `contentDocument` live in
the inductive `RawDOMNode` below; everything else of the TS interface is
here. -/
structure NodeData where
  nodeId : Nat
  nodeType : NodeType
  tagName : String
  attributes : List (String × String)
  textContent : String
  boundingRect : BoundingRect
  computedStyles : ComputedStyles
  isScrollable : Bool
  scrollTop : ℚ
  scrollLeft : ℚ
  scrollHeight : ℚ
  scrollWidth : ℚ
  clientHeight : ℚ
  clientWidth : ℚ
  paintOrder : Int
  shadowMode : Option String
  isFrame : Bool
  frameUrl : Option String
  viewportWidth : Option ℚ
  viewportHeight : Option ℚ
deriving DecidableEq

/-- Raw DOM tree node (types.ts `RawDOMNode`): scalar data plus the
recursive children / shadow roots / iframe content document. -/
inductive RawDOMNode where
  | mk (data : NodeData) (children : List RawDOMNode)
       (shadowRoots : List RawDOMNode) (contentDocument : Option RawDOMNode)

namespace RawDOMNode

/-- Scalar field record of a node. -/
def data : RawDOMNode → NodeData
  | .mk d _ _ _ => d

/-- Child nodes. -/
def children : RawDOMNode → List RawDOMNode
  | .mk _ cs _ _ => cs

/-- Shadow DOM roots. -/
def shadowRoots : RawDOMNode → List RawDOMNode
  | .mk _ _ ss _ => ss

/-- Content document for iframes. -/
def contentDocument : RawDOMNode → Option RawDOMNode
  | .mk _ _ _ cd => cd

/-- Field accessor mirroring `node.nodeId`. -/
def nodeId (n : RawDOMNode) : Nat := n.data.nodeId

/-- Field accessor mirroring `node.nodeType`. -/
def nodeType (n : RawDOMNode) : NodeType := n.data.nodeType

/-- Field accessor mirroring `node.tagName`. -/
def tagName (n : RawDOMNode) : String := n.data.tagName

/-- Field accessor mirroring `node.attributes`. -/
def attributes (n : RawDOMNode) : List (String × String) := n.data.attributes

/-- Field accessor mirroring `node.textContent`. -/
def textContent (n : RawDOMNode) : String := n.data.textContent

/-- Field accessor mirroring `node.boundingRect`. -/
def boundingRect (n : RawDOMNode) : BoundingRect := n.data.boundingRect

/-- Field accessor mirroring `node.computedStyles`. -/
def computedStyles (n : RawDOMNode) : ComputedStyles := n.data.computedStyles

/-- Field accessor mirroring `node.isScrollable`. -/
def isScrollable (n : RawDOMNode) : Bool := n.data.isScrollable

/-- Field accessor mirroring `node.scrollTop`. -/
def scrollTop (n : RawDOMNode) : ℚ := n.data.scrollTop

/-- Field accessor mirroring `node.scrollHeight`. -/
def scrollHeight (n : RawDOMNode) : ℚ := n.data.scrollHeight

/-- Field accessor mirroring `node.clientHeight`. -/
def clientHeight (n : RawDOMNode) : ℚ := n.data.clientHeight

/-- Field accessor mirroring `node.paintOrder`. -/
def paintOrder (n : RawDOMNode) : Int := n.data.paintOrder

/-- Field accessor mirroring `node.shadowMode`. -/
def shadowMode (n : RawDOMNode) : Option String := n.data.shadowMode

/-- Field accessor mirroring `node.isFrame`. -/
def isFrame (n : RawDOMNode) : Bool := n.data.isFrame

end RawDOMNode

/-- Induction principle for the nested inductive `RawDOMNode`: to prove
`P` for every node it suffices to prove it for a node assuming it for
all children, shadow roots and the content document. -/
theorem RawDOMNode.ind (P : RawDOMNode → Prop)
    (h : ∀ (d : NodeData) (cs ss : List RawDOMNode) (cd : Option RawDOMNode),
      (∀ c ∈ cs, P c) → (∀ s ∈ ss, P s) → (∀ x, cd = some x → P x) →
      P (RawDOMNode.mk d cs ss cd)) :
    ∀ n, P n
  | RawDOMNode.mk d cs ss cd =>
    h d cs ss cd
      (fun c hc =>
        have := hc
        RawDOMNode.ind P h c)
      (fun s hs =>
        have := hs
        RawDOMNode.ind P h s)
      (fun x hx =>
        have := hx
        RawDOMNode.ind P h x)
termination_by n => sizeOf n
decreasing_by
  · have := List.sizeOf_lt_of_mem hc
    simp only [RawDOMNode.mk.sizeOf_spec]
    omega
  · have := List.sizeOf_lt_of_mem hs
    simp only [RawDOMNode.mk.sizeOf_spec]
    omega
  · subst hx
    simp only [RawDOMNode.mk.sizeOf_spec, Option.some.sizeOf_spec]
    omega

mutual

/-- Collect all nodes of a tree into a flat array (filters.ts
`flattenTree`): the node itself, then the flattened children, shadow
roots and content document, in that order. -/
def flattenTree : RawDOMNode → List RawDOMNode
  | RawDOMNode.mk d cs ss cd =>
    RawDOMNode.mk d cs ss cd ::
      (flattenForest cs ++ flattenForest ss ++
        (match cd with
         | some x => flattenTree x
         | none => []))
termination_by n => sizeOf n

/-- Concatenation of `flattenTree` over a list of nodes. -/
def flattenForest : List RawDOMNode → List RawDOMNode
  | [] => []
  | c :: rest => flattenTree c ++ flattenForest rest
termination_by l => sizeOf l

end

/-! JavaScript primitives used by the source: attribute lookup on a
`Record<string, string>`, `parseFloat`, `parseInt(·, 10)`, `\s`
whitespace, `trim`, substring search, and number formatting. -/

/-- Lookup in an attribute record (JS `node.attributes[name]`):
first binding wins, `none` models `undefined`. -/
def getAttr (attrs : List (String × String)) (name : String) : Option String :=
  (attrs.find? (fun p => p.1 == name)).map Prod.snd

/-- Character class of the JS regex `\s` (ASCII part plus NBSP). -/
def jsIsSpace (c : Char) : Bool :=
  c == ' ' || c == '\t' || c == '\n' || c == '\r' ||
    c == Char.ofNat 11 || c == Char.ofNat 12 || c == Char.ofNat 160

/-- JS `String.prototype.trim`: strip leading and trailing whitespace. -/
def jsTrim (s : String) : String :=
  String.mk (((s.data.dropWhile jsIsSpace).reverse.dropWhile jsIsSpace).reverse)

/-- JS `replace(/\s+/g, ' ')`: collapse every whitespace run to a single
space. -/
def collapseWhitespace (s : String) : String :=
  String.mk ((s.data.foldl
    (fun (acc : List Char × Bool) c =>
      if jsIsSpace c then
        (if acc.2 then acc.1 else ' ' :: acc.1, true)
      else
        (c :: acc.1, false))
    ([], false)).1.reverse)

/-- Numeric value of a list of decimal digit characters. -/
def digitsToNat (ds : List Char) : Nat :=
  ds.foldl (fun n c => 10 * n + (c.toNat - 48)) 0

/-- Parse an optional exponent part (`e`/`E`, optional sign, digits) of a
JS float literal; returns 0 when absent or malformed, matching the value
`parseFloat` produces in those cases. -/
def parseExponent (cs : List Char) : Int :=
  match cs with
  | c :: rest =>
    if c == 'e' || c == 'E' then
      let (sign, rest') : Int × List Char :=
        match rest with
        | d :: rest'' =>
          if d == '-' then (-1, rest'')
          else if d == '+' then (1, rest'')
          else (1, d :: rest'')
        | [] => (1, [])
      let (ds, _) := rest'.span Char.isDigit
      if ds.isEmpty then 0 else sign * (digitsToNat ds : Int)
    else 0
  | [] => 0

/-- JS `parseFloat`: longest numeric prefix after leading whitespace;
`none` models `NaN` (no digits found).  `Infinity` literals, which never
arise from the computed-style strings this code parses, are not
modelled. -/
def jsParseFloat (s : String) : Option ℚ :=
  let cs := s.data.dropWhile jsIsSpace
  let (sign, cs) : ℚ × List Char :=
    match cs with
    | c :: rest =>
      if c == '-' then (-1, rest)
      else if c == '+' then (1, rest)
      else (1, c :: rest)
    | [] => (1, [])
  let (intDigits, cs) := cs.span Char.isDigit
  let (fracDigits, cs) :=
    match cs with
    | c :: rest =>
      if c == '.' then
        let (ds, rest') := rest.span Char.isDigit
        (ds, rest')
      else ([], c :: rest)
    | [] => ([], [])
  if intDigits.isEmpty && fracDigits.isEmpty then none
  else
    let mant : ℚ :=
      (digitsToNat intDigits : ℚ) + (digitsToNat fracDigits : ℚ) / ((10 : ℚ) ^ fracDigits.length)
    let e : Int := parseExponent cs
    some (sign * mant * (10 : ℚ) ^ e)

/-- JS `parseInt(s, 10)`: optional sign then decimal digits after leading
whitespace; `none` models `NaN`. -/
def jsParseInt10 (s : String) : Option Int :=
  let cs := s.data.dropWhile jsIsSpace
  let (sign, cs) : Int × List Char :=
    match cs with
    | c :: rest =>
      if c == '-' then (-1, rest)
      else if c == '+' then (1, rest)
      else (1, c :: rest)
    | [] => (1, [])
  let (ds, _) := cs.span Char.isDigit
  if ds.isEmpty then none else some (sign * (digitsToNat ds : Int))

/-- Check that `needle` is a prefix of `hay` (character lists). -/
def listStartsWith : List Char → List Char → Bool
  | _, [] => true
  | [], _ :: _ => false
  | h :: hs, n :: ns => h == n && listStartsWith hs ns

/-- Scan every suffix of the haystack for the needle as a prefix. -/
def listContainsSub : List Char → List Char → Bool
  | hay, needle =>
    listStartsWith hay needle ||
      match hay with
      | [] => false
      | _ :: rest => listContainsSub rest needle

/-- JS `String.prototype.includes`: substring search. -/
def strIncludes (hay needle : String) : Bool :=
  listContainsSub hay.data needle.data

/-- JS `String.prototype.toLowerCase` (ASCII, like core `String.toLower`),
written over the character list so it evaluates in the kernel. -/
def jsToLower (s : String) : String :=
  String.mk (s.data.map Char.toLower)

/-- JS `String.prototype.startsWith`. -/
def strStartsWith (s pat : String) : Bool :=
  listStartsWith s.data pat.data

/-- JS `Number.prototype.toFixed(1)` on an exact rational: round to one
decimal digit, ties toward the larger value, and print `i.d`. -/
def toFixed1 (q : ℚ) : String :=
  let n : Int := Int.floor (10 * q + 1 / 2)
  (if n < 0 then "-" else "") ++
    Nat.repr (n.natAbs / 10) ++ "." ++ Nat.repr (n.natAbs % 10)

/-! Constants from types.ts. -/

/-- Tags that are inherently interactive (types.ts `INTERACTIVE_TAGS`). -/
def INTERACTIVE_TAGS : List String :=
  ["button", "input", "select", "textarea", "a", "details", "summary",
   "option", "optgroup"]

/-- ARIA roles that indicate interactivity (types.ts `INTERACTIVE_ROLES`). -/
def INTERACTIVE_ROLES : List String :=
  ["button", "link", "menuitem", "menuitemcheckbox", "menuitemradio",
   "option", "radio", "checkbox", "tab", "textbox", "combobox", "slider",
   "spinbutton", "listbox", "searchbox", "switch", "treeitem"]

/-- Minimum iframe dimension to be considered interactive (types.ts
`MIN_INTERACTIVE_IFRAME_SIZE`). -/
def MIN_INTERACTIVE_IFRAME_SIZE : ℚ := 100

/-- Default attribute allow-list for serialization (types.ts
`DEFAULT_INCLUDE_ATTRIBUTES`). -/
def DEFAULT_INCLUDE_ATTRIBUTES : List String :=
  ["type", "id", "name", "role", "class",
   "placeholder", "value", "checked", "selected", "disabled", "required",
   "readonly",
   "aria-label", "aria-expanded", "aria-checked", "aria-disabled",
   "aria-placeholder", "aria-valuemin", "aria-valuemax", "aria-valuenow",
   "href", "target",
   "alt", "title", "src",
   "min", "max", "minlength", "maxlength", "pattern", "step", "inputmode",
   "autocomplete", "accept", "multiple",
   "data-testid", "data-date-format",
   "contenteditable",
   "tabindex"]

/-! visibility.ts -/

/-- Check whether a bounding rect intersects the viewport (visibility.ts
`isInViewport`). -/
def isInViewport (rect : BoundingRect) (viewportWidth viewportHeight : ℚ)
    (scrollX scrollY : ℚ) : Bool :=
  let vLeft := scrollX
  let vTop := scrollY
  let vRight := scrollX + viewportWidth
  let vBottom := scrollY + viewportHeight
  let eLeft := rect.x
  let eTop := rect.y
  let eRight := rect.x + rect.width
  let eBottom := rect.y + rect.height
  !(decide (eRight < vLeft) || decide (eLeft > vRight) ||
    decide (eBottom < vTop) || decide (eTop > vBottom))

/-- The `parseFloat(opacity) <= 0` test of visibility.ts `isVisible`
(false when the parse is `NaN`, as in JS). -/
def opacityLE0 (opacity : String) : Bool :=
  match jsParseFloat opacity with
  | some o => decide (o ≤ 0)
  | none => false

/-- Check whether a node is visible from its CSS properties
(visibility.ts `isVisible`); the optional parameters are explicit here
and `isVisibleD` below applies the source's defaults. -/
def isVisible (node : RawDOMNode) (viewportWidth viewportHeight : Option ℚ)
    (checkViewport : Bool) : Bool :=
  if node.nodeType == NodeType.TEXT_NODE then true
  else if node.nodeType == NodeType.DOCUMENT_FRAGMENT_NODE then true
  else if node.computedStyles.display == "none" then false
  else if node.computedStyles.visibility == "hidden" then false
  else
    -- JS `opacity <= 0` is false when parseFloat returned NaN
    if opacityLE0 node.computedStyles.opacity then
      -- special case: file inputs with opacity 0 stay visible
      if node.tagName == "input" && getAttr node.attributes "type" == some "file" then
        true
      else false
    else
      -- zero-dimension check: only hidden inputs are pruned here
      if node.boundingRect.width == 0 && node.boundingRect.height == 0 &&
          node.tagName == "input" && getAttr node.attributes "type" == some "hidden" then
        false
      else
        -- viewport intersection, when requested and both dimensions truthy
        match viewportWidth, viewportHeight with
        | some w, some h =>
          if checkViewport && !(w == 0) && !(h == 0) then
            isInViewport node.boundingRect w h 0 0
          else true
        | _, _ => true

/-- The source's default invocation `isVisible(node)`. -/
def isVisibleD (node : RawDOMNode) : Bool :=
  isVisible node none none false

mutual

/-- Filter a tree to its visible nodes (visibility.ts
`filterVisibleNodes`): prune an invisible node with its whole subtree,
otherwise keep the node and recurse. -/
def filterVisibleNodes : RawDOMNode → Option RawDOMNode
  | RawDOMNode.mk d cs ss cd =>
    if !isVisibleD (RawDOMNode.mk d cs ss cd) then none
    else
      some (RawDOMNode.mk d (filterVisibleList cs) (filterVisibleList ss)
        (match cd with
         | some x => filterVisibleNodes x
         | none => none))
termination_by n => sizeOf n

/-- Keep, in order, the visible filtered versions of a node list. -/
def filterVisibleList : List RawDOMNode → List RawDOMNode
  | [] => []
  | c :: rest =>
    match filterVisibleNodes c with
    | some c' => c' :: filterVisibleList rest
    | none => filterVisibleList rest
termination_by l => sizeOf l

end

/-! interactive.ts -/

/-- Check whether a node is interactive (interactive.ts `isInteractive`). -/
def isInteractive (node : RawDOMNode) : Bool :=
  if node.nodeType == NodeType.TEXT_NODE then false
  else if node.nodeType == NodeType.DOCUMENT_FRAGMENT_NODE then false
  else
    let tagName := jsToLower node.tagName
    let attributes := node.attributes
    if tagName == "input" && getAttr attributes "type" == some "hidden" then false
    else if INTERACTIVE_TAGS.contains tagName then true
    else
      let role := (getAttr attributes "role").map jsToLower
      if (match role with
          | some r => !(r == "") && INTERACTIVE_ROLES.contains r
          | none => false) then true
      else if (getAttr attributes "onclick").isSome then true
      else if ["onmousedown", "onmouseup", "onkeydown", "onkeyup",
               "ontouchstart", "ontouchend"].any
                (fun h => (getAttr attributes h).isSome) then true
      else if (match getAttr attributes "tabindex" with
               | some tv =>
                 match jsParseInt10 tv with
                 | some ti => decide (ti ≥ 0)
                 | none => false
               | none => false) then true
      else if getAttr attributes "contenteditable" == some "true" ||
              getAttr attributes "contenteditable" == some "" then true
      else if node.computedStyles.cursor == "pointer" then true
      else if node.isFrame &&
              decide (node.boundingRect.width ≥ MIN_INTERACTIVE_IFRAME_SIZE) &&
              decide (node.boundingRect.height ≥ MIN_INTERACTIVE_IFRAME_SIZE) then true
      else
        let classAttr := jsToLower ((getAttr attributes "class").getD "")
        let idAttr := jsToLower ((getAttr attributes "id").getD "")
        ["search", "magnify", "glass", "lookup", "find", "query"].any
          (fun p =>
            (strIncludes classAttr p || strIncludes idAttr p) &&
              node.computedStyles.cursor == "pointer")

/-- Check whether a node propagates its bounding box to children
(interactive.ts `isPropagatingElement`). -/
def isPropagatingElement (node : RawDOMNode) : Bool :=
  let tagName := jsToLower node.tagName
  let role := (getAttr node.attributes "role").map jsToLower
  if tagName == "button" || tagName == "a" then true
  else if (tagName == "div" || tagName == "span" || tagName == "input") &&
          (role == some "button" || role == some "combobox") then true
  else false

/-- Check whether a child of a propagating parent is kept anyway
(interactive.ts `shouldKeepChildInPropagatingParent`). -/
def shouldKeepChildInPropagatingParent (child : RawDOMNode) : Bool :=
  let tagName := jsToLower child.tagName
  let role := (getAttr child.attributes "role").map jsToLower
  let attributes := child.attributes
  if child.nodeType == NodeType.TEXT_NODE then false
  else if ["input", "select", "textarea", "label"].contains tagName then true
  else if (getAttr attributes "onclick").isSome then true
  else if (getAttr attributes "aria-label").isSome then true
  else if (match role with
           | some r => !(r == "") && INTERACTIVE_ROLES.contains r
           | none => false) then true
  else if isPropagatingElement child then true
  else false

mutual

/-- Count interactive descendants of a node (interactive.ts
`countInteractiveDescendants`): children and shadow roots are counted,
iframe content documents are not traversed. -/
def countInteractiveDescendants : RawDOMNode → Nat
  | RawDOMNode.mk _ cs ss _ =>
    countInteractiveList cs + countInteractiveShadowList ss
termination_by n => sizeOf n

/-- Sum over children: one per interactive child plus its own count. -/
def countInteractiveList : List RawDOMNode → Nat
  | [] => 0
  | c :: rest =>
    (if isInteractive c then 1 else 0) + countInteractiveDescendants c +
      countInteractiveList rest
termination_by l => sizeOf l

/-- Sum of descendant counts over shadow roots. -/
def countInteractiveShadowList : List RawDOMNode → Nat
  | [] => 0
  | s :: rest => countInteractiveDescendants s + countInteractiveShadowList rest
termination_by l => sizeOf l

end

/-- Check whether a scrollable container should be made interactive
(interactive.ts `shouldMakeScrollableInteractive`). -/
def shouldMakeScrollableInteractive (node : RawDOMNode) : Bool :=
  if !node.isScrollable then false
  else countInteractiveDescendants node == 0

/-! filters.ts -/

/-- Containment percentage of `inner` within `outer` (filters.ts
`getContainmentPercentage`): intersection area divided by the inner
area, 0 on empty intersection or zero inner area. -/
def getContainmentPercentage (inner outer : BoundingRect) : ℚ :=
  let intersectLeft := max inner.x outer.x
  let intersectRight := min (inner.x + inner.width) (outer.x + outer.width)
  let intersectTop := max inner.y outer.y
  let intersectBottom := min (inner.y + inner.height) (outer.y + outer.height)
  if intersectRight ≤ intersectLeft ∨ intersectBottom ≤ intersectTop then
    0 -- no intersection
  else
    let intersectionArea := (intersectRight - intersectLeft) * (intersectBottom - intersectTop)
    let innerArea := inner.width * inner.height
    if innerArea = 0 then 0
    else intersectionArea / innerArea

/-- Check full containment at the 99% threshold (filters.ts
`isFullyContained`). -/
def isFullyContained (inner outer : BoundingRect) : Bool :=
  decide (getContainmentPercentage inner outer ≥ (99 : ℚ) / 100)

/-- Take a maximal nonempty run of `[\d.]` characters. -/
def spanDigitsDots (cs : List Char) : List Char × List Char :=
  cs.span (fun c => c.isDigit || c == '.')

/-- Match the regex `rgba?\([\d.]+,\s*[\d.]+,\s*[\d.]+(?:,\s*([\d.]+))?\)`
at the start of the character list.  `some (some a)` is a match whose
optional alpha group captured `a`; `some none` a match without the
group; `none` no match at this position. -/
def matchRgbaAt (cs : List Char) : Option (Option (List Char)) :=
  match cs with
  | 'r' :: 'g' :: 'b' :: rest0 =>
    let rest1 := match rest0 with
      | 'a' :: r => r
      | r => r
    match rest1 with
    | '(' :: r1 =>
      let (d1, r2) := spanDigitsDots r1
      if d1.isEmpty then none
      else
        match r2 with
        | ',' :: r3 =>
          let r4 := r3.dropWhile jsIsSpace
          let (d2, r5) := spanDigitsDots r4
          if d2.isEmpty then none
          else
            match r5 with
            | ',' :: r6 =>
              let r7 := r6.dropWhile jsIsSpace
              let (d3, r8) := spanDigitsDots r7
              if d3.isEmpty then none
              else
                match r8 with
                | ',' :: r9 =>
                  -- optional alpha group; on failure the regex falls back
                  -- to requiring a close paren right after the third run,
                  -- which cannot be this comma, so the match fails
                  let r10 := r9.dropWhile jsIsSpace
                  let (d4, r11) := spanDigitsDots r10
                  if d4.isEmpty then none
                  else
                    match r11 with
                    | ')' :: _ => some (some d4)
                    | _ => none
                | ')' :: _ => some none
                | _ => none
            | _ => none
        | _ => none
    | _ => none
  | _ => none

/-- First (leftmost) match of the rgba pattern in the string, as JS
`String.prototype.match` finds it. -/
def scanRgba : List Char → Option (Option (List Char))
  | [] => none
  | c :: rest =>
    match matchRgbaAt (c :: rest) with
    | some r => some r
    | none => scanRgba rest

/-- Check whether an overlay element is opaque (filters.ts
`isOpaqueElement`). -/
def isOpaqueElement (node : RawDOMNode) : Bool :=
  let bgColor := node.computedStyles.backgroundColor
  if bgColor == "" || bgColor == "transparent" || bgColor == "rgba(0, 0, 0, 0)" then
    false
  else
    match scanRgba bgColor.data with
    | some (some alphaCs) =>
      -- JS `alpha < 0.9` is false when parseFloat returned NaN
      match jsParseFloat (String.mk alphaCs) with
      | some alpha => if alpha < (9 : ℚ) / 10 then false else true
      | none => true
    | some none => true
    | none => true

/-- Check whether an element is occluded by a later-painted opaque
element (filters.ts `isOccludedByPaintOrder`). -/
def isOccludedByPaintOrder (node : RawDOMNode) (allNodes : List RawDOMNode) : Bool :=
  if node.boundingRect.width == 0 || node.boundingRect.height == 0 then false
  else
    let laterPainted := allNodes.filter (fun other => other.paintOrder > node.paintOrder)
    laterPainted.any (fun overlayNode =>
      if overlayNode.boundingRect.width == 0 || overlayNode.boundingRect.height == 0 then
        false
      else
        isFullyContained node.boundingRect overlayNode.boundingRect &&
          isOpaqueElement overlayNode)

mutual

/-- The inner `processNode` of filters.ts `filterByPaintOrder`: a deep
copy of the node, leaving every field unchanged. -/
def fbpoProcessNode : RawDOMNode → RawDOMNode
  | RawDOMNode.mk d cs ss cd =>
    RawDOMNode.mk d (fbpoProcessList cs) (fbpoProcessList ss)
      (match cd with
       | some x => some (fbpoProcessNode x)
       | none => none)
termination_by n => sizeOf n

/-- Map of `fbpoProcessNode` over a node list. -/
def fbpoProcessList : List RawDOMNode → List RawDOMNode
  | [] => []
  | c :: rest => fbpoProcessNode c :: fbpoProcessList rest
termination_by l => sizeOf l

end

/-- Paint-order filter (filters.ts `filterByPaintOrder`).  As in the
source, `allNodes` is computed and never used, and the returned tree is
a plain deep copy of the input. -/
def filterByPaintOrder (root : RawDOMNode) : RawDOMNode :=
  let _allNodes := flattenTree root
  fbpoProcessNode root

/-- The skip test of the child loop of filters.ts
`filterByBboxPropagation`: a child fully contained in the propagating
ancestor that need not be kept is dropped. -/
def fbbpShouldSkip (child : RawDOMNode) (ancestorToCheck : Option RawDOMNode) : Bool :=
  match ancestorToCheck with
  | some anc =>
    isFullyContained child.boundingRect anc.boundingRect &&
      !shouldKeepChildInPropagatingParent child
  | none => false

mutual

/-- The inner `processNode` of filters.ts `filterByBboxPropagation`,
with its `propagatingAncestor` parameter made explicit. -/
def fbbpProcessNode : RawDOMNode → Option RawDOMNode → RawDOMNode
  | RawDOMNode.mk d cs ss cd, propagatingAncestor =>
    let node := RawDOMNode.mk d cs ss cd
    let isThisPropagating := isPropagatingElement node
    let newPropagatingAncestor := if isThisPropagating then some node else propagatingAncestor
    let ancestorToCheck := if isThisPropagating then some node else propagatingAncestor
    RawDOMNode.mk d
      (fbbpProcessChildren cs ancestorToCheck newPropagatingAncestor)
      (fbbpProcessShadows ss newPropagatingAncestor)
      (match cd with
       | some x => some (fbbpProcessNode x none) -- reset ancestor for iframes
       | none => none)
termination_by n _ => sizeOf n

/-- Child loop of `filterByBboxPropagation`: drop a child fully
contained in the propagating ancestor unless it must be kept. -/
def fbbpProcessChildren :
    List RawDOMNode → Option RawDOMNode → Option RawDOMNode → List RawDOMNode
  | [], _, _ => []
  | child :: rest, ancestorToCheck, newAncestor =>
    if fbbpShouldSkip child ancestorToCheck then
      fbbpProcessChildren rest ancestorToCheck newAncestor
    else fbbpProcessNode child newAncestor :: fbbpProcessChildren rest ancestorToCheck newAncestor
termination_by l _ _ => sizeOf l

/-- Shadow-root loop of `filterByBboxPropagation`. -/
def fbbpProcessShadows : List RawDOMNode → Option RawDOMNode → List RawDOMNode
  | [], _ => []
  | s :: rest, newAncestor =>
    fbbpProcessNode s newAncestor :: fbbpProcessShadows rest newAncestor
termination_by l _ => sizeOf l

end

/-- Bounding-box propagation filter (filters.ts
`filterByBboxPropagation`). -/
def filterByBboxPropagation (root : RawDOMNode) : RawDOMNode :=
  fbbpProcessNode root none

/-! serialize.ts -/

/-- Result of `getLLMTree` / `serializeTree` (types.ts `LLMTreeResult`);
the `Map<number, string>` is modelled as an association list in
insertion order, faithful because every inserted key is fresh. -/
structure LLMTreeResult where
  tree : String
  selectorMap : List (Nat × String)
deriving DecidableEq

/-- Options for `getLLMTree` (types.ts `GetLLMTreeOptions`); the
`previousState` key set is modelled as a list of node ids. -/
structure GetLLMTreeOptions where
  previousState : Option (List Nat)
  includeIframes : Option Bool
  includeShadowDOM : Option Bool
  maxTextLength : Option Nat
  includeAttributes : Option (List String)
  enablePaintOrderFiltering : Option Bool
  enableBboxFiltering : Option Bool
deriving DecidableEq

/-- The all-absent options value (TS `{}`). -/
def defaultOptions : GetLLMTreeOptions :=
  ⟨none, none, none, none, none, none, none⟩

/-- Serialization state threaded through recursive calls (serialize.ts
`SerializationContext`). -/
structure SerializationContext where
  index : Nat
  selectorMap : List (Nat × String)
  previousState : Option (List Nat)
  maxTextLength : Nat
  includeAttributes : List String
deriving DecidableEq

/-- Character codes needing a backslash escape in CSS selector values
(the character class of serialize.ts `escapeSelector`). -/
def selectorSpecialCodes : List Nat :=
  [33, 34, 35, 36, 37, 38, 39, 40, 41, 42, 43, 44, 46, 47, 58, 59, 60,
   61, 62, 63, 64, 91, 92, 93, 94, 96, 123, 124, 125, 126]

/-- Escape special characters in CSS selector values (serialize.ts
`escapeSelector`). -/
def escapeSelector (value : String) : String :=
  String.mk (value.data.foldr
    (fun c acc =>
      if selectorSpecialCodes.contains c.toNat then '\\' :: c :: acc
      else c :: acc)
    [])

/-- Escape special characters in attribute values (serialize.ts
`escapeAttribute`). -/
def escapeAttribute (value : String) : String :=
  String.join (value.data.map
    (fun c =>
      if c == '"' then "&quot;"
      else if c == '<' then "&lt;"
      else if c == '>' then "&gt;"
      else String.mk [c]))

/-- Render the JS `nth-of-type` index `findIndex(...) + 1`: `findIndex`
yields -1 when absent, printing as 0. -/
def nthOfTypeIndex (siblings : List RawDOMNode) (nid : Nat) : String :=
  match siblings.findIdx? (fun c => c.nodeId == nid) with
  | some k => Nat.repr (k + 1)
  | none => "0"

/-- JS truthiness of a possibly-absent attribute string. -/
def attrTruthy (v : Option String) : Bool :=
  match v with
  | some s => !(s == "")
  | none => false

/-- The path element contributed by one ancestor-chain entry in
serialize.ts `buildSelector`: the bare tag when it is an only or
parentless child of its tag, else `tag:nth-of-type(i)` among the
parent's same-tag children. -/
def pathPartFor (prev : Option RawDOMNode) (current : RawDOMNode)
    (currentTag : String) : String :=
  match prev with
  | some parent =>
    let sameTagSiblings :=
      parent.children.filter (fun c => jsToLower c.tagName == currentTag)
    if sameTagSiblings.length == 1 then currentTag
    else currentTag ++ ":nth-of-type(" ++
      nthOfTypeIndex sameTagSiblings current.nodeId ++ ")"
  | none => currentTag

/-- The path-building loop of serialize.ts `buildSelector`: walk the
ancestor chain carrying the previous path element (for `nth-of-type`
sibling counting) and the accumulated parts, which an `id` resets. -/
def buildPathParts :
    Option RawDOMNode → List RawDOMNode → List String → List String
  | _, [], pathParts => pathParts
  | prev, current :: rest, pathParts =>
    let currentTag := jsToLower current.tagName
    if strStartsWith currentTag "#" || current.nodeType == NodeType.TEXT_NODE then
      buildPathParts (some current) rest pathParts
    else if attrTruthy (getAttr current.attributes "id") then
      -- reset path, start from id
      buildPathParts (some current) rest
        ["#" ++ escapeSelector ((getAttr current.attributes "id").getD "")]
    else
      buildPathParts (some current) rest (pathParts ++ [pathPartFor prev current currentTag])

/-- Build a CSS selector for a node (serialize.ts `buildSelector`):
id, then data-testid, then name for form elements, then an
nth-of-type path. -/
def buildSelector (node : RawDOMNode) (ancestors : List RawDOMNode) : String :=
  let tagName := jsToLower node.tagName
  let idv := getAttr node.attributes "id"
  let testidv := getAttr node.attributes "data-testid"
  let namev := getAttr node.attributes "name"
  if strStartsWith tagName "#" || node.nodeType == NodeType.TEXT_NODE then ""
  else if attrTruthy idv then "#" ++ escapeSelector (idv.getD "")
  else if attrTruthy testidv then
    "[data-testid=\"" ++ escapeSelector (testidv.getD "") ++ "\"]"
  else if attrTruthy namev && ["input", "select", "textarea"].contains tagName then
    tagName ++ "[name=\"" ++ escapeSelector (namev.getD "") ++ "\"]"
  else
    String.intercalate " > " (buildPathParts none (ancestors ++ [node]) [])

/-- Build the attribute string of a node (serialize.ts
`buildAttributeString`); the accumulator pairs the rendered parts with
the `seenValues` deduplication set. -/
def buildAttributeString (node : RawDOMNode) (includeAttributes : List String) :
    String :=
  let result := includeAttributes.foldl
    (fun (acc : List String × List String) attrName =>
      match getAttr node.attributes attrName with
      | none => acc
      | some value =>
        if value == "" then acc
        else if acc.2.contains value then acc -- skip duplicate values
        else
          let seen := acc.2 ++ [value]
          -- the `value == ""` disjunct is unreachable (filtered above)
          -- but mirrors the source's boolean-attribute test
          if value == "" || value == attrName then (acc.1 ++ [attrName], seen)
          else
            (acc.1 ++ [attrName ++ "=\"" ++ escapeAttribute value ++ "\""], seen))
    ([], [])
  String.intercalate " " result.1

/-- Truncate text content to a maximum length (serialize.ts
`truncateText`); JS `substring` clamps the negative bound to 0 exactly
as `Nat` subtraction does. -/
def truncateText (text : String) (maxLength : Nat) : String :=
  let cleaned := collapseWhitespace (jsTrim text)
  if cleaned.length ≤ maxLength then cleaned
  else String.mk (cleaned.data.take (maxLength - 3)) ++ "..."

/-- Scroll info string for scrollable containers (serialize.ts
`getScrollInfo`). -/
def getScrollInfo (node : RawDOMNode) : String :=
  if !node.isScrollable || node.clientHeight == 0 then ""
  else
    let totalScrollableHeight := node.scrollHeight
    let viewportHeight := node.clientHeight
    let currentScrollTop := node.scrollTop
    if totalScrollableHeight ≤ viewportHeight then ""
    else
      let pagesAbove := currentScrollTop / viewportHeight
      let pagesBelow :=
        (totalScrollableHeight - currentScrollTop - viewportHeight) / viewportHeight
      "(" ++ toFixed1 pagesAbove ++ " pages above, " ++
        toFixed1 pagesBelow ++ " pages below)"

/-- The shadow marker string of serialize.ts `serializeNode`
(`node.shadowMode || 'open'`). -/
def shadowMarkerStr (sm : Option String) : String :=
  "|SHADOW(" ++
    (match sm with
     | some m => if m == "" then "open" else m
     | none => "open") ++ ")|"

/-- The interactive-node step of serialize.ts `serializeNode`: allocate
the next index, build and store the selector, and compute the `[i]` /
`*[i]` prefix; a non-interactive node leaves the context unchanged. -/
def serializeInteractiveStep (node : RawDOMNode) (ctx : SerializationContext)
    (ancestors : List RawDOMNode) : String × SerializationContext :=
  if isInteractive node then
    let index := ctx.index + 1
    let selector := buildSelector node ancestors
    let isNew :=
      match ctx.previousState with
      | some ps => !(ps.contains node.nodeId)
      | none => false
    ((if isNew then "*[" else "[") ++ Nat.repr index ++ "]",
      { ctx with
          index := index,
          selectorMap := ctx.selectorMap ++ [(index, selector)] })
  else ("", ctx)

/-- The `|SCROLL|` prefix decoration of serialize.ts `serializeNode`. -/
def scrollPrefix (node : RawDOMNode) (p : String) : String :=
  if node.isScrollable then
    let scrollInfo := getScrollInfo node
    let p' := "|SCROLL|" ++ p
    if !(scrollInfo == "") then p' ++ " " ++ scrollInfo else p'
  else p

/-- The `hasVisibleChildren` test of serialize.ts `serializeNode`. -/
def hasVisibleChildrenF (cs : List RawDOMNode) : Bool :=
  cs.any (fun c =>
    c.nodeType != NodeType.TEXT_NODE && c.tagName != "#text" && isVisibleD c)

mutual

/-- Serialize a single node (serialize.ts `serializeNode`), threading
the mutable context explicitly and returning the rendered string. -/
def serializeNode :
    RawDOMNode → Nat → SerializationContext → List RawDOMNode →
      String × SerializationContext
  | RawDOMNode.mk dd cs ss cd, depth, ctx, ancestors =>
    let node := RawDOMNode.mk dd cs ss cd
    let indent := String.mk (List.replicate depth '\t')
    let tagName := jsToLower node.tagName
    -- text nodes are handled by the parent
    if node.nodeType == NodeType.TEXT_NODE || tagName == "#text" then ("", ctx)
    -- skip non-visible elements
    else if !isVisibleD node then ("", ctx)
    -- shadow roots
    else if node.nodeType == NodeType.DOCUMENT_FRAGMENT_NODE then
      let marker := shadowMarkerStr node.shadowMode
      let r := serializeList cs (depth + 1) [indent ++ marker] ctx (ancestors ++ [node])
      (String.intercalate "\n" r.1, r.2)
    -- iframes
    else if node.isFrame && cd.isSome then
      match cd with
      | some doc =>
        let r := serializeNode doc (depth + 1) ctx []
        let lines :=
          if r.1 == "" then [indent ++ "|IFRAME|"]
          else [indent ++ "|IFRAME|", r.1]
        (String.intercalate "\n" lines, r.2)
      | none => ("", ctx) -- unreachable under the guard
    else
      -- element string
      let step := serializeInteractiveStep node ctx ancestors
      let ctx1 := step.2
      let pfx := scrollPrefix node step.1
      let attrString := buildAttributeString node ctx1.includeAttributes
      let attrPart := if !(attrString == "") then " " ++ attrString else ""
      let text := truncateText node.textContent ctx1.maxTextLength
      let hasVisibleChildren := hasVisibleChildrenF cs
      let hasShadowRoots := !ss.isEmpty
      if !hasVisibleChildren && !hasShadowRoots && text == "" then
        -- self-closing tag
        (indent ++ pfx ++ "<" ++ tagName ++ attrPart ++ " />", ctx1)
      else if !hasVisibleChildren && !hasShadowRoots then
        -- element with just text content
        (indent ++ pfx ++ "<" ++ tagName ++ attrPart ++ ">" ++ text ++
          "</" ++ tagName ++ ">", ctx1)
      else if !(text == "") && !hasVisibleChildren then
        (indent ++ pfx ++ "<" ++ tagName ++ attrPart ++ ">" ++ text ++
          "</" ++ tagName ++ ">", ctx1)
      else
        let openLine := indent ++ pfx ++ "<" ++ tagName ++ attrPart ++ ">"
        -- shadow roots first, then children
        let r1 := serializeList ss (depth + 1) [openLine] ctx1 (ancestors ++ [node])
        let r2 := serializeList cs (depth + 1) r1.1 r1.2 (ancestors ++ [node])
        (String.intercalate "\n" (r2.1 ++ [indent ++ "</" ++ tagName ++ ">"]), r2.2)
termination_by n _ _ _ => sizeOf n

/-- Serialize a node list in order, appending each nonempty rendering to
the accumulated lines. -/
def serializeList :
    List RawDOMNode → Nat → List String → SerializationContext →
      List RawDOMNode → List String × SerializationContext
  | [], _, lines, ctx, _ => (lines, ctx)
  | c :: rest, depth, lines, ctx, ancestors =>
    let r := serializeNode c depth ctx ancestors
    serializeList rest depth (if r.1 == "" then lines else lines ++ [r.1]) r.2 ancestors
termination_by l _ _ _ _ => sizeOf l

end

/-- Serialize a tree to browser-use format (serialize.ts
`serializeTree`).  Note the source initializes `includeAttributes` to
`DEFAULT_INCLUDE_ATTRIBUTES` unconditionally, never reading
`options.includeAttributes`. -/
def serializeTree (root : RawDOMNode) (options : GetLLMTreeOptions) : LLMTreeResult :=
  let ctx : SerializationContext :=
    { index := 0
      selectorMap := []
      previousState := options.previousState
      maxTextLength := options.maxTextLength.getD 100
      includeAttributes := DEFAULT_INCLUDE_ATTRIBUTES }
  let r := serializeNode root 0 ctx []
  { tree := r.1, selectorMap := r.2.selectorMap }

/-- Pipeline of index.ts `getLLMTree` after the extraction step: the
argument is what `extractRawDOM` returned (`none` models extraction
failure), then visibility filtering, paint-order filtering, bbox
propagation, and serialization are applied exactly as in the source. -/
def getLLMTree (rawTree : Option RawDOMNode) (options : GetLLMTreeOptions) :
    LLMTreeResult :=
  match rawTree with
  | none => { tree := "", selectorMap := [] }
  | some rawTree =>
    match filterVisibleNodes rawTree with
    | none => { tree := "", selectorMap := [] }
    | some visibleTree =>
      serializeTree (filterByBboxPropagation (filterByPaintOrder visibleTree)) options

/-! compound.ts -/

/-- Exact-decimal rendering of JS `String(x)` for a number modelled as
`Option ℚ` (`none` = `NaN`).  Every number reaching this function in the
source is produced by `parseFloat` on a decimal literal (or arithmetic
on such), so its decimal expansion terminates; the fuel bounds the
fraction digits. -/
def fracDigitsAux : Nat → ℚ → List Char
  | 0, _ => []
  | fuel + 1, q =>
    if q = 0 then []
    else
      let q10 := q * 10
      let d : Nat := Int.toNat (Int.floor q10)
      Char.ofNat (48 + d) :: fracDigitsAux fuel (q10 - (d : ℚ))

/-- JS `String(x)` on a modelled number. -/
def jsNumToString (x : Option ℚ) : String :=
  match x with
  | none => "NaN"
  | some q =>
    let sgn := if q < 0 then "-" else ""
    let aq := |q|
    let ip := Int.toNat (Int.floor aq)
    let fp := aq - (ip : ℚ)
    if fp = 0 then sgn ++ Nat.repr ip
    else sgn ++ Nat.repr ip ++ "." ++ String.mk (fracDigitsAux 64 fp)

/-- Virtual sub-component of a complex form control (types.ts
`CompoundComponent`); numeric fields are `Option (Option ℚ)`: the outer
`Option` is TS field absence, the inner models `NaN`. -/
structure CompoundComponent where
  name : String
  role : String
  min : Option (Option ℚ)
  max : Option (Option ℚ)
  current : Option String
  options : Option (List String)
  count : Option Nat
  format : Option String
deriving DecidableEq

/-- A component with only `name` and `role` set. -/
def mkComponent (name role : String) : CompoundComponent :=
  ⟨name, role, none, none, none, none, none, none⟩

/-- First truthy of a text value and an optional attribute, else the
final operand (JS `a || b` on strings where `b` may be undefined). -/
def firstTruthy (t : String) (v : Option String) : Option String :=
  if !(t == "") then some t else v

/-- Selected option text (compound.ts `getSelectedOptionText`). -/
def getSelectedOptionText (options : List RawDOMNode) : Option String :=
  match options.find? (fun opt => (getAttr opt.attributes "selected").isSome) with
  | some selected => firstTruthy selected.textContent (getAttr selected.attributes "value")
  | none =>
    match options with
    | first :: _ => firstTruthy first.textContent (getAttr first.attributes "value")
    | [] => none

/-- Compound components for a select element (compound.ts
`getSelectCompounds`). -/
def getSelectCompounds (node : RawDOMNode) : List CompoundComponent :=
  let options := node.children.filter (fun c => jsToLower c.tagName == "option")
  let displayOptions := (options.take 4).map
    (fun opt => ((firstTruthy opt.textContent (getAttr opt.attributes "value")).getD ""))
  let remainingCount := options.length - 4
  let displayOptions :=
    if remainingCount > 0 then
      displayOptions ++ ["... +" ++ Nat.repr remainingCount ++ " more"]
    else displayOptions
  [{ mkComponent "Dropdown Toggle" "combobox" with
      options := some displayOptions,
      current := getSelectedOptionText options }]

/-- Compound components for a file input (compound.ts
`getFileInputCompounds`). -/
def getFileInputCompounds (node : RawDOMNode) : List CompoundComponent :=
  let isMultiple := (getAttr node.attributes "multiple").isSome
  let accept := getAttr node.attributes "accept"
  [mkComponent "Browse Files" "button",
   { mkComponent (if isMultiple then "Files Selected" else "File Selected") "textbox" with
      format :=
        match accept with
        | some a => if !(a == "") then some ("Accepts: " ++ a) else none
        | none => none }]

/-- Compound components for a range input (compound.ts
`getRangeInputCompounds`). -/
def getRangeInputCompounds (node : RawDOMNode) : List CompoundComponent :=
  let min := jsParseFloat (((getAttr node.attributes "min").filter (fun s => !(s == ""))).getD "0")
  let max := jsParseFloat (((getAttr node.attributes "max").filter (fun s => !(s == ""))).getD "100")
  let avg : Option ℚ :=
    match min, max with
    | some a, some b => some ((a + b) / 2)
    | _, _ => none
  let current := jsParseFloat
    (((getAttr node.attributes "value").filter (fun s => !(s == ""))).getD (jsNumToString avg))
  let step := getAttr node.attributes "step"
  [{ mkComponent "Slider" "slider" with
      min := some min,
      max := some max,
      current := some (jsNumToString current),
      format :=
        match step with
        | some s => if !(s == "") then some ("Step: " ++ s) else none
        | none => none }]

/-- Compound components for a number input (compound.ts
`getNumberInputCompounds`): Decrement, Value, Increment. -/
def getNumberInputCompounds (node : RawDOMNode) : List CompoundComponent :=
  let min := getAttr node.attributes "min"
  let max := getAttr node.attributes "max"
  let current := getAttr node.attributes "value"
  [mkComponent "Decrement" "button",
   { mkComponent "Value" "spinbutton" with
      current := current,
      min := min.map jsParseFloat,
      max := max.map jsParseFloat },
   mkComponent "Increment" "button"]

/-- Compound components for date/time inputs (compound.ts
`getDateInputCompounds`). -/
def getDateInputCompounds (node : RawDOMNode) (format : String) :
    List CompoundComponent :=
  [{ mkComponent "Date Picker" "textbox" with
      format := some format,
      current := getAttr node.attributes "value" }]

/-- Compound components for a color input (compound.ts
`getColorInputCompounds`). -/
def getColorInputCompounds (node : RawDOMNode) : List CompoundComponent :=
  [{ mkComponent "Color Picker" "button" with
      current := some (((getAttr node.attributes "value").filter
        (fun s => !(s == ""))).getD "#000000"),
      format := some "Hex color" }]

/-- Compound components for a video element (compound.ts
`getVideoCompounds`). -/
def getVideoCompounds (node : RawDOMNode) : List CompoundComponent :=
  if (getAttr node.attributes "controls").isNone then []
  else
    [mkComponent "Play/Pause" "button",
     { mkComponent "Progress" "slider" with min := some (some 0), max := some (some 100) },
     { mkComponent "Volume" "slider" with min := some (some 0), max := some (some 100) },
     mkComponent "Mute" "button",
     mkComponent "Fullscreen" "button"]

/-- Compound components for an audio element (compound.ts
`getAudioCompounds`). -/
def getAudioCompounds (node : RawDOMNode) : List CompoundComponent :=
  if (getAttr node.attributes "controls").isNone then []
  else
    [mkComponent "Play/Pause" "button",
     { mkComponent "Progress" "slider" with min := some (some 0), max := some (some 100) },
     { mkComponent "Volume" "slider" with min := some (some 0), max := some (some 100) },
     mkComponent "Mute" "button"]

/-- Compound components for a details element (compound.ts
`getDetailsCompounds`). -/
def getDetailsCompounds (node : RawDOMNode) : List CompoundComponent :=
  let isOpen := (getAttr node.attributes "open").isSome
  [{ mkComponent "Toggle" "button" with
      current := some (if isOpen then "expanded" else "collapsed") }]

/-- Compound component dispatch (compound.ts `getCompoundComponents`). -/
def getCompoundComponents (node : RawDOMNode) : List CompoundComponent :=
  let tagName := jsToLower node.tagName
  let inputType := (getAttr node.attributes "type").map jsToLower
  if tagName == "select" then getSelectCompounds node
  else if tagName == "input" then
    match inputType with
    | some "file" => getFileInputCompounds node
    | some "range" => getRangeInputCompounds node
    | some "number" => getNumberInputCompounds node
    | some "date" => getDateInputCompounds node "YYYY-MM-DD"
    | some "time" => getDateInputCompounds node "HH:MM"
    | some "datetime-local" => getDateInputCompounds node "YYYY-MM-DDTHH:MM"
    | some "color" => getColorInputCompounds node
    | _ => []
  else if tagName == "video" then getVideoCompounds node
  else if tagName == "audio" then getAudioCompounds node
  else if tagName == "details" then getDetailsCompounds node
  else []

/-! Concrete fixtures used by the counterexample and witness theorems. -/

/-- Styles of an ordinary visible block element with transparent
background. -/
def plainStyles : ComputedStyles :=
  ⟨"block", "visible", "1", "auto", "rgba(0, 0, 0, 0)", "visible", "visible", "visible", "auto"⟩

/-- Styles of a visible block element with a fully opaque red
background. -/
def opaqueRedStyles : ComputedStyles :=
  ⟨"block", "visible", "1", "auto", "rgb(255, 0, 0)", "visible", "visible", "visible", "auto"⟩

/-- Scalar data of a plain element fixture: no scroll, no frame. -/
def elData (nid : Nat) (tag : String) (attrs : List (String × String))
    (rect : BoundingRect) (po : Int) (styles : ComputedStyles) : NodeData :=
  ⟨nid, NodeType.ELEMENT_NODE, tag, attrs, "", rect, styles, false, 0, 0, 0, 0, 0, 0, po,
    none, false, none, none, none⟩

/-- Element node fixture without shadow roots or content document. -/
def el (nid : Nat) (tag : String) (attrs : List (String × String))
    (rect : BoundingRect) (po : Int) (styles : ComputedStyles)
    (children : List RawDOMNode) : RawDOMNode :=
  RawDOMNode.mk (elData nid tag attrs rect po styles) children [] none

/-- A visible interactive button, painted first. -/
def c1Button : RawDOMNode := el 2 "button" [("id", "submit")] ⟨0, 0, 100, 50⟩ 1 plainStyles []

/-- An opaque div painted after the button, covering it exactly. -/
def c1Overlay : RawDOMNode := el 3 "div" [] ⟨0, 0, 100, 50⟩ 2 opaqueRedStyles []

/-- Root holding the button and its later-painted opaque overlay. -/
def c1Root : RawDOMNode := el 1 "div" [] ⟨0, 0, 200, 200⟩ 0 plainStyles [c1Button, c1Overlay]

/-! Theorems.  First the paint-order filter (claims C9, C1). -/

/-- Pointwise identity of `fbpoProcessList`. -/
theorem fbpoProcessList_id (cs : List RawDOMNode)
    (h : ∀ c ∈ cs, fbpoProcessNode c = c) : fbpoProcessList cs = cs := by
  induction cs with
  | nil => rw [fbpoProcessList]
  | cons c rest ih =>
    rw [fbpoProcessList, h c (by simp)]
    rw [ih (fun x hx => h x (by simp [hx]))]

/-- The `processNode` copy inside `filterByPaintOrder` is the identity. -/
theorem fbpoProcessNode_id : ∀ n, fbpoProcessNode n = n := by
  intro n
  induction n using RawDOMNode.ind with
  | _ d cs ss cd ihc ihs ihd =>
    cases cd with
    | none =>
      simp only [fbpoProcessNode]
      rw [fbpoProcessList_id cs ihc, fbpoProcessList_id ss ihs]
    | some x =>
      simp only [fbpoProcessNode]
      rw [fbpoProcessList_id cs ihc, fbpoProcessList_id ss ihs, ihd x rfl]

/-- `filterByPaintOrder` returns its input unchanged. -/
theorem filterByPaintOrder_id : ∀ t, filterByPaintOrder t = t :=
  fun t => fbpoProcessNode_id t

/-- C9: for every tree, `filterByPaintOrder` returns a tree equal to its
input — no node is removed, marked, or altered, so the result is in
particular independent of `isOccludedByPaintOrder`. -/
theorem claim_C9_filterByPaintOrder_identity : ∀ t, filterByPaintOrder t = t := by
  intro t
  induction t using RawDOMNode.ind with
  | _ d cs ss cd ihc ihs ihd =>
    show fbpoProcessNode _ = _
    cases cd with
    | none =>
      simp only [fbpoProcessNode]
      rw [fbpoProcessList_id cs (fun c hc => ihc c hc)]
      rw [fbpoProcessList_id ss (fun s hs => ihs s hs)]
    | some x =>
      simp only [fbpoProcessNode]
      rw [fbpoProcessList_id cs (fun c hc => ihc c hc)]
      rw [fbpoProcessList_id ss (fun s hs => ihs s hs)]
      rw [show fbpoProcessNode x = x from ihd x rfl]

/-- Visibility filtering keeps the C1 fixture tree unchanged. -/
theorem c1_visible : filterVisibleNodes c1Root = some c1Root := by
  simp [filterVisibleNodes, filterVisibleList, c1Root, c1Button, c1Overlay, el, elData,
        RawDOMNode.data, RawDOMNode.children, RawDOMNode.shadowRoots,
        RawDOMNode.contentDocument, RawDOMNode.nodeId, RawDOMNode.nodeType, RawDOMNode.tagName,
        RawDOMNode.attributes, RawDOMNode.textContent, RawDOMNode.boundingRect,
        RawDOMNode.computedStyles, RawDOMNode.isScrollable, RawDOMNode.paintOrder,
        RawDOMNode.shadowMode, RawDOMNode.isFrame,
        show ∀ x ∈ [c1Root, c1Button, c1Overlay], isVisibleD x = true from by decide]

/-- Bounding-box propagation keeps the C1 fixture tree unchanged. -/
theorem c1_bbox : filterByBboxPropagation c1Root = c1Root := by
  simp [filterByBboxPropagation, fbbpProcessNode, fbbpProcessChildren, fbbpProcessShadows,
        c1Root, c1Button, c1Overlay, el, elData, fbbpShouldSkip,
        RawDOMNode.data, RawDOMNode.children, RawDOMNode.shadowRoots,
        RawDOMNode.contentDocument, RawDOMNode.nodeId, RawDOMNode.nodeType, RawDOMNode.tagName,
        RawDOMNode.attributes, RawDOMNode.textContent, RawDOMNode.boundingRect,
        RawDOMNode.computedStyles, RawDOMNode.isScrollable, RawDOMNode.paintOrder,
        RawDOMNode.shadowMode, RawDOMNode.isFrame,
        show ∀ x ∈ [c1Root, c1Overlay], isPropagatingElement x = false from by decide,
        show ∀ x ∈ [c1Button], isPropagatingElement x = true from by decide]

/-- Serializing the C1 fixture indexes the covered button. -/
theorem c1_serialize : (serializeTree c1Root defaultOptions).selectorMap = [(1, "#submit")] := by
  simp [serializeTree, serializeNode, serializeList, serializeInteractiveStep, scrollPrefix,
        hasVisibleChildrenF, c1Root, c1Button, c1Overlay, el, elData,
        defaultOptions,
        RawDOMNode.data, RawDOMNode.children, RawDOMNode.shadowRoots,
        RawDOMNode.contentDocument, RawDOMNode.nodeId, RawDOMNode.nodeType, RawDOMNode.tagName,
        RawDOMNode.attributes, RawDOMNode.textContent, RawDOMNode.boundingRect,
        RawDOMNode.computedStyles, RawDOMNode.isScrollable, RawDOMNode.paintOrder,
        RawDOMNode.shadowMode, RawDOMNode.isFrame,
        show ∀ x ∈ [c1Root, c1Button, c1Overlay], isVisibleD x = true from by decide,
        show ∀ x ∈ [c1Root, c1Overlay], isInteractive x = false from by decide,
        show ∀ x ∈ [c1Button], isInteractive x = true from by decide,
        show ∀ x ∈ [c1Button], ∀ a ∈ [[c1Root]], buildSelector x a = "#submit" from by decide,
        show ∀ x ∈ [c1Root, c1Overlay], buildAttributeString x DEFAULT_INCLUDE_ATTRIBUTES = "" from by decide,
        show ∀ x ∈ [c1Button], buildAttributeString x DEFAULT_INCLUDE_ATTRIBUTES = "id=\"submit\"" from by decide,
        show truncateText "" 100 = "" from by decide,
        show ∀ s ∈ ["div", "button"], jsToLower s = s from by decide]

/-- The flattened C1 fixture tree. -/
theorem c1_flatten : flattenTree c1Root = [c1Root, c1Button, c1Overlay] := by
  simp [flattenTree, flattenForest, c1Root, c1Button, c1Overlay, el, elData]

/-- C1: the spec says an interactive node occluded at ≥ 99% by a
later-painted opaque node is excluded from the selector map, but the
pipeline never applies occlusion: `filterByPaintOrder` ignores the
occlusion predicate (its `allNodes` is computed and unused), so the
fully covered button — which the code's own `isOccludedByPaintOrder`
classifies as occluded — still gets index 1 and its selector is present
in the final map returned by `getLLMTree`. -/
theorem claim_C1_occluded_button_still_indexed :
    isInteractive c1Button = true ∧
    isOpaqueElement c1Overlay = true ∧
    isOccludedByPaintOrder c1Button (flattenTree c1Root) = true ∧
    buildSelector c1Button [c1Root] = "#submit" ∧
    (getLLMTree (some c1Root) defaultOptions).selectorMap = [(1, "#submit")] := by
  refine ⟨by decide, by decide, ?_, by decide, ?_⟩
  · rw [c1_flatten]
    decide
  · simp only [getLLMTree, c1_visible, filterByPaintOrder_id, c1_bbox, c1_serialize]

/-! Claim C3: algebraic properties of the containment percentage. -/

/-- Specification-side predicate: two axis-aligned rectangles do not
intersect (no point lies strictly inside both): one lies fully at or
beyond an edge of the other. -/
def rectDisjoint (A B : BoundingRect) : Prop :=
  A.x + A.width ≤ B.x ∨ B.x + B.width ≤ A.x ∨
    A.y + A.height ≤ B.y ∨ B.y + B.height ≤ A.y

theorem claim_C3_containment (A B : BoundingRect)
    (hAw : 0 ≤ A.width) (hAh : 0 ≤ A.height)
    (hBw : 0 ≤ B.width) (hBh : 0 ≤ B.height) :
    (0 < A.width * A.height → getContainmentPercentage A A = 1) ∧
    (rectDisjoint A B → getContainmentPercentage A B = 0) ∧
    0 ≤ getContainmentPercentage A B ∧ getContainmentPercentage A B ≤ 1 ∧
    (A.width * A.height = 0 → getContainmentPercentage A B = 0) := by
  have hiR : min (A.x + A.width) (B.x + B.width) ≤ A.x + A.width := min_le_left _ _
  have hiL : A.x ≤ max A.x B.x := le_max_left _ _
  have hiB : min (A.y + A.height) (B.y + B.height) ≤ A.y + A.height := min_le_left _ _
  have hiT : A.y ≤ max A.y B.y := le_max_left _ _
  refine ⟨?_, ?_, ?_, ?_, ?_⟩
  · -- self containment is 1 when the area is positive
    intro hpos
    have hw : 0 < A.width := by nlinarith
    have hh : 0 < A.height := by nlinarith
    simp only [getContainmentPercentage, min_self, max_self]
    rw [if_neg (by push_neg; constructor <;> linarith)]
    rw [if_neg (ne_of_gt hpos)]
    rw [add_sub_cancel_left, add_sub_cancel_left]
    exact div_self (ne_of_gt hpos)
  · -- no intersection gives 0
    intro hd
    simp only [getContainmentPercentage]
    refine if_pos ?_
    rcases hd with h | h | h | h
    · exact Or.inl (le_trans (min_le_left _ _) (le_trans h (le_max_right _ _)))
    · exact Or.inl (le_trans (min_le_right _ _) (le_trans h (le_max_left _ _)))
    · exact Or.inr (le_trans (min_le_left _ _) (le_trans h (le_max_right _ _)))
    · exact Or.inr (le_trans (min_le_right _ _) (le_trans h (le_max_left _ _)))
  · -- lower bound 0
    simp only [getContainmentPercentage]
    split_ifs with h1 h2
    · exact le_refl 0
    · exact le_refl 0
    · push_neg at h1
      have hpos : 0 < A.width * A.height :=
        lt_of_le_of_ne (mul_nonneg hAw hAh) (Ne.symm h2)
      exact div_nonneg (by nlinarith [h1.1, h1.2]) (le_of_lt hpos)
  · -- upper bound 1
    simp only [getContainmentPercentage]
    split_ifs with h1 h2
    · exact zero_le_one
    · exact zero_le_one
    · push_neg at h1
      have hpos : 0 < A.width * A.height :=
        lt_of_le_of_ne (mul_nonneg hAw hAh) (Ne.symm h2)
      rw [div_le_one hpos]
      nlinarith [h1.1, h1.2]
  · -- zero-area inner gives 0
    intro h0
    simp only [getContainmentPercentage]
    split_ifs with h1
    · rfl
    · rfl

/-- Witness for C3 at the unit square and a far-away unit square. -/
theorem claim_C3_containment_witness :
    (0 < (1 : ℚ) * 1 → getContainmentPercentage ⟨0, 0, 1, 1⟩ ⟨0, 0, 1, 1⟩ = 1) ∧
    (rectDisjoint ⟨0, 0, 1, 1⟩ ⟨5, 5, 1, 1⟩ →
      getContainmentPercentage ⟨0, 0, 1, 1⟩ ⟨5, 5, 1, 1⟩ = 0) ∧
    0 ≤ getContainmentPercentage ⟨0, 0, 1, 1⟩ ⟨5, 5, 1, 1⟩ ∧
    getContainmentPercentage ⟨0, 0, 1, 1⟩ ⟨5, 5, 1, 1⟩ ≤ 1 ∧
    ((1 : ℚ) * 1 = 0 → getContainmentPercentage ⟨0, 0, 1, 1⟩ ⟨5, 5, 1, 1⟩ = 0) :=
  claim_C3_containment ⟨0, 0, 1, 1⟩ ⟨5, 5, 1, 1⟩ (by norm_num) (by norm_num)
    (by norm_num) (by norm_num)

/-! Claim C7: compound components of a number input. -/

/-- An `<input type="number" min="1" max="99" value="1">` fixture. -/
def c7NumberInput : RawDOMNode :=
  el 7 "input" [("type", "number"), ("min", "1"), ("max", "99"), ("value", "1")]
    ⟨0, 0, 60, 20⟩ 1 plainStyles []

theorem claim_C7_number_input_compounds (node : RawDOMNode)
    (htag : jsToLower node.tagName = "input")
    (htype : (getAttr node.attributes "type").map jsToLower = some "number") :
    (getCompoundComponents node).map (fun c => (c.name, c.role)) =
      [("Decrement", "button"), ("Value", "spinbutton"), ("Increment", "button")] ∧
    ∃ v, getCompoundComponents node =
        [mkComponent "Decrement" "button", v, mkComponent "Increment" "button"] ∧
      v.current = getAttr node.attributes "value" ∧
      (v.min.isSome ↔ (getAttr node.attributes "min").isSome) ∧
      (∀ s, getAttr node.attributes "min" = some s → v.min = some (jsParseFloat s)) ∧
      (v.max.isSome ↔ (getAttr node.attributes "max").isSome) ∧
      (∀ s, getAttr node.attributes "max" = some s → v.max = some (jsParseFloat s)) := by
  have hne : jsToLower node.tagName ≠ "select" := by rw [htag]; decide
  have hne2 : jsToLower node.tagName ≠ "video" := by rw [htag]; decide
  have h : getCompoundComponents node = getNumberInputCompounds node := by
    rw [getCompoundComponents]
    simp only [htag, htype]
    rfl
  rw [h, getNumberInputCompounds]
  refine ⟨by simp [mkComponent], ?_⟩
  refine ⟨_, rfl, rfl, ?_, ?_, ?_, ?_⟩
  · cases getAttr node.attributes "min" <;> simp [mkComponent]
  · intro s hs
    show (getAttr node.attributes "min").map jsParseFloat = some (jsParseFloat s)
    rw [hs]
    rfl
  · cases getAttr node.attributes "max" <;> simp [mkComponent]
  · intro s hs
    show (getAttr node.attributes "max").map jsParseFloat = some (jsParseFloat s)
    rw [hs]
    rfl

theorem claim_C7_number_input_compounds_witness :
    (getCompoundComponents c7NumberInput).map (fun c => (c.name, c.role)) =
      [("Decrement", "button"), ("Value", "spinbutton"), ("Increment", "button")] ∧
    ∃ v, getCompoundComponents c7NumberInput =
        [mkComponent "Decrement" "button", v, mkComponent "Increment" "button"] ∧
      v.current = getAttr c7NumberInput.attributes "value" ∧
      (v.min.isSome ↔ (getAttr c7NumberInput.attributes "min").isSome) ∧
      (∀ s, getAttr c7NumberInput.attributes "min" = some s → v.min = some (jsParseFloat s)) ∧
      (v.max.isSome ↔ (getAttr c7NumberInput.attributes "max").isSome) ∧
      (∀ s, getAttr c7NumberInput.attributes "max" = some s → v.max = some (jsParseFloat s)) :=
  claim_C7_number_input_compounds c7NumberInput (by decide) (by decide)

/-! Claim C4: the visibility predicate. -/

/-- Specification-side helper naming the claim's "parsed opacity is ≤ 0"
condition: the computed `opacity` string parses to a number that is not
positive (a `NaN` parse is not ≤ 0, as in JS). -/
def parsedOpacityNonpositive (n : RawDOMNode) : Bool :=
  opacityLE0 n.computedStyles.opacity

/-- A zero-sized hidden input that `isVisible` rejects even though its
display, visibility and opacity are all unremarkable. -/
def c4HiddenInput : RawDOMNode :=
  el 4 "input" [("type", "hidden")] ⟨0, 0, 0, 0⟩ 1 plainStyles []

theorem claim_C4_counterexample :
    isVisibleD c4HiddenInput = false ∧
    c4HiddenInput.nodeType = NodeType.ELEMENT_NODE ∧
    ¬(c4HiddenInput.computedStyles.display = "none" ∨
      c4HiddenInput.computedStyles.visibility = "hidden" ∨
      parsedOpacityNonpositive c4HiddenInput = true) := by
  refine ⟨by decide, by decide, ?_⟩
  intro h
  rcases h with h | h | h <;> revert h <;> decide

theorem claim_C4_amended (n : RawDOMNode) :
    ((n.nodeType = NodeType.TEXT_NODE ∨ n.nodeType = NodeType.DOCUMENT_FRAGMENT_NODE) →
      isVisibleD n = true) ∧
    (n.nodeType = NodeType.ELEMENT_NODE →
      (isVisibleD n = false ↔
        (n.computedStyles.display = "none" ∨
         n.computedStyles.visibility = "hidden" ∨
         (parsedOpacityNonpositive n = true ∧
           ¬(n.tagName = "input" ∧ getAttr n.attributes "type" = some "file")) ∨
         (parsedOpacityNonpositive n = false ∧
           n.boundingRect.width = 0 ∧ n.boundingRect.height = 0 ∧
           n.tagName = "input" ∧ getAttr n.attributes "type" = some "hidden")))) := by
  obtain ⟨d, cs, ss, cd⟩ := n
  constructor
  · intro h
    rcases h with h | h <;>
      simp_all [isVisibleD, isVisible, RawDOMNode.nodeType, RawDOMNode.data]
  · intro he
    simp only [RawDOMNode.nodeType, RawDOMNode.data] at he
    by_cases hd : d.computedStyles.display = "none" <;>
      by_cases hv : d.computedStyles.visibility = "hidden" <;>
        by_cases ho : opacityLE0 d.computedStyles.opacity = true <;>
          by_cases h1 : d.tagName = "input" <;>
            by_cases h2 : getAttr d.attributes "type" = some "file" <;>
              by_cases h3 : getAttr d.attributes "type" = some "hidden" <;>
                by_cases hw : d.boundingRect.width = 0 <;>
                  by_cases hh : d.boundingRect.height = 0 <;>
                    simp_all [isVisibleD, isVisible, parsedOpacityNonpositive, he,
                      RawDOMNode.nodeType, RawDOMNode.tagName, RawDOMNode.attributes,
                      RawDOMNode.computedStyles, RawDOMNode.boundingRect, RawDOMNode.data]

/-- Witness applying the amended C4 theorem to the zero-sized hidden
input fixture. -/
theorem claim_C4_amended_witness : isVisibleD c4HiddenInput = false :=
  ((claim_C4_amended c4HiddenInput).2 (by decide)).mpr
    (Or.inr (Or.inr (Or.inr
      ⟨by decide, by decide, by decide, by decide, by decide⟩)))

/-! Claim C8: the includeAttributes option. -/

/-- A text input fixture with two attributes from the default
allow-list. -/
def c8Input : RawDOMNode :=
  el 8 "input" [("type", "text"), ("id", "q")] ⟨0, 0, 100, 20⟩ 1 plainStyles []

/-- Options overriding the attribute allow-list with just
`placeholder`. -/
def c8Options : GetLLMTreeOptions :=
  ⟨none, none, none, none, some ["placeholder"], none, none⟩

/-- C8: the spec says `options.includeAttributes` overrides the default
allow-list, but `serializeTree` initializes its context with
`DEFAULT_INCLUDE_ATTRIBUTES` unconditionally: with the allow-list
restricted to `placeholder` the rendered node would carry no attributes
at all, yet the output still shows `type` and `id`, identical to the
default-options output. -/
theorem claim_C8_includeAttributes_ignored :
    c8Options.includeAttributes = some ["placeholder"] ∧
    buildAttributeString c8Input ["placeholder"] = "" ∧
    (serializeTree c8Input c8Options).tree = "[1]<input type=\"text\" id=\"q\" />" ∧
    (serializeTree c8Input c8Options).tree = (serializeTree c8Input defaultOptions).tree := by
  have h : ∀ o ∈ [c8Options, defaultOptions],
      (serializeTree c8Input o).tree = "[1]<input type=\"text\" id=\"q\" />" := by
    intro o ho
    simp [serializeTree, serializeNode, serializeList, serializeInteractiveStep, scrollPrefix,
          hasVisibleChildrenF, c8Input, el, elData,
          RawDOMNode.data, RawDOMNode.children, RawDOMNode.shadowRoots,
        RawDOMNode.contentDocument, RawDOMNode.nodeId, RawDOMNode.nodeType, RawDOMNode.tagName,
        RawDOMNode.attributes, RawDOMNode.textContent, RawDOMNode.boundingRect,
        RawDOMNode.computedStyles, RawDOMNode.isScrollable, RawDOMNode.paintOrder,
        RawDOMNode.shadowMode, RawDOMNode.isFrame,
          show ∀ x ∈ [c8Input], isVisibleD x = true from by decide,
          show ∀ x ∈ [c8Input], isInteractive x = true from by decide,
          show ∀ x ∈ [c8Input], ∀ a ∈ [([] : List RawDOMNode)], buildSelector x a = "#q" from by decide,
          show ∀ x ∈ [c8Input],
            buildAttributeString x DEFAULT_INCLUDE_ATTRIBUTES = "type=\"text\" id=\"q\"" from by decide,
          show ∀ s ∈ ["input"], jsToLower s = s from by decide] at ho ⊢
    rcases ho with ho | ho <;> subst ho <;>
      simp [serializeTree, serializeNode, serializeList, serializeInteractiveStep, scrollPrefix,
          hasVisibleChildrenF, c8Options, defaultOptions, c8Input, el, elData,
          RawDOMNode.data, RawDOMNode.children, RawDOMNode.shadowRoots,
        RawDOMNode.contentDocument, RawDOMNode.nodeId, RawDOMNode.nodeType, RawDOMNode.tagName,
        RawDOMNode.attributes, RawDOMNode.textContent, RawDOMNode.boundingRect,
        RawDOMNode.computedStyles, RawDOMNode.isScrollable, RawDOMNode.paintOrder,
        RawDOMNode.shadowMode, RawDOMNode.isFrame,
          show ∀ x ∈ [c8Input], isVisibleD x = true from by decide,
          show ∀ x ∈ [c8Input], isInteractive x = true from by decide,
          show ∀ x ∈ [c8Input], ∀ a ∈ [([] : List RawDOMNode)], buildSelector x a = "#q" from by decide,
          show ∀ x ∈ [c8Input],
            buildAttributeString x DEFAULT_INCLUDE_ATTRIBUTES = "type=\"text\" id=\"q\"" from by decide,
          show truncateText "" 100 = "" from by decide,
          show ∀ s ∈ ["input"], jsToLower s = s from by decide] <;>
      decide
  refine ⟨rfl, by decide, h c8Options (by simp), ?_⟩
  rw [h c8Options (by simp), h defaultOptions (by simp)]

/-! Claim C2: the allocated index sequence. -/

/-- How one serialization call step may change the context: read-only
fields unchanged, the counter only grows, and the selector-map key list
extends by exactly the freshly allocated indices, in order. -/
def ctxEvolves (ctx ctx' : SerializationContext) : Prop :=
  ctx'.previousState = ctx.previousState ∧
  ctx'.maxTextLength = ctx.maxTextLength ∧
  ctx'.includeAttributes = ctx.includeAttributes ∧
  ctx.index ≤ ctx'.index ∧
  ctx'.selectorMap.map Prod.fst =
    ctx.selectorMap.map Prod.fst ++ List.range' (ctx.index + 1) (ctx'.index - ctx.index)

theorem ctxEvolves_refl (ctx : SerializationContext) : ctxEvolves ctx ctx := by
  refine ⟨rfl, rfl, rfl, le_refl _, ?_⟩
  simp

theorem ctxEvolves_trans {a b c : SerializationContext}
    (h1 : ctxEvolves a b) (h2 : ctxEvolves b c) : ctxEvolves a c := by
  obtain ⟨p1, m1, i1, l1, s1⟩ := h1
  obtain ⟨p2, m2, i2, l2, s2⟩ := h2
  refine ⟨p2.trans p1, m2.trans m1, i2.trans i1, le_trans l1 l2, ?_⟩
  rw [s2, s1, List.append_assoc]
  congr 1
  have h := List.range'_append (a.index + 1) (b.index - a.index) (c.index - b.index) 1
  rw [show (a.index + 1) + 1 * (b.index - a.index) = b.index + 1 from by omega] at h
  rw [show c.index - b.index + (b.index - a.index) = c.index - a.index from by omega] at h
  exact h

theorem ctxEvolves_step (ctx : SerializationContext) (s : String) :
    ctxEvolves ctx
      { ctx with
          index := ctx.index + 1,
          selectorMap := ctx.selectorMap ++ [(ctx.index + 1, s)] } := by
  refine ⟨rfl, rfl, rfl, Nat.le_succ _, ?_⟩
  show (ctx.selectorMap ++ [(ctx.index + 1, s)]).map Prod.fst =
    ctx.selectorMap.map Prod.fst ++ List.range' (ctx.index + 1) (ctx.index + 1 - ctx.index)
  rw [show ctx.index + 1 - ctx.index = 1 from by omega]
  simp [List.range']

theorem serializeList_evolves (nodes : List RawDOMNode)
    (h : ∀ c ∈ nodes, ∀ d ctx anc, ctxEvolves ctx (serializeNode c d ctx anc).2) :
    ∀ d lines ctx anc, ctxEvolves ctx (serializeList nodes d lines ctx anc).2 := by
  induction nodes with
  | nil =>
    intro d lines ctx anc
    rw [serializeList]
    exact ctxEvolves_refl ctx
  | cons c rest ih =>
    intro d lines ctx anc
    rw [serializeList]
    exact ctxEvolves_trans (h c (by simp) d ctx anc)
      (ih (fun x hx => h x (by simp [hx])) d _ _ anc)

theorem serializeInteractiveStep_evolves (node : RawDOMNode)
    (ctx : SerializationContext) (anc : List RawDOMNode) :
    ctxEvolves ctx (serializeInteractiveStep node ctx anc).2 := by
  rw [serializeInteractiveStep]
  split_ifs
  · exact ctxEvolves_step ctx _
  · exact ctxEvolves_refl ctx

theorem serializeNode_evolves :
    ∀ n d ctx anc, ctxEvolves ctx (serializeNode n d ctx anc).2 := by
  intro n
  induction n using RawDOMNode.ind with
  | _ dd cs ss cd ihc ihs ihd =>
    intro d ctx anc
    have hcs := serializeList_evolves cs (fun c hc => ihc c hc)
    have hss := serializeList_evolves ss (fun s hs => ihs s hs)
    cases cd with
    | none =>
      rw [serializeNode.eq_def]
      dsimp only
      simp only [apply_ite Prod.snd]
      split_ifs <;>
        first
          | exact ctxEvolves_refl ctx
          | exact hcs _ _ _ _
          | exact ctxEvolves_trans (serializeInteractiveStep_evolves _ ctx anc)
              (ctxEvolves_trans (hss _ _ _ _) (hcs _ _ _ _))
          | exact serializeInteractiveStep_evolves _ ctx anc
    | some doc =>
      rw [serializeNode.eq_def]
      dsimp only
      simp only [apply_ite Prod.snd]
      split_ifs <;>
        first
          | exact ctxEvolves_refl ctx
          | exact hcs _ _ _ _
          | exact ihd doc rfl _ _ _
          | exact ctxEvolves_trans (serializeInteractiveStep_evolves _ ctx anc)
              (ctxEvolves_trans (hss _ _ _ _) (hcs _ _ _ _))
          | exact serializeInteractiveStep_evolves _ ctx anc

/-- C2: in one `serializeTree` call the allocated indices, read off the
selector map in insertion (traversal) order, are exactly 1, 2, …, n with
no gaps or repeats, where n is the number of entries — so the key set is
exactly {1, …, n}. -/
theorem claim_C2_index_sequence (t : RawDOMNode) (opts : GetLLMTreeOptions) :
    (serializeTree t opts).selectorMap.map Prod.fst =
      List.range' 1 (serializeTree t opts).selectorMap.length := by
  obtain ⟨-, -, -, -, hmap⟩ := serializeNode_evolves t 0
    ⟨0, [], opts.previousState, opts.maxTextLength.getD 100, DEFAULT_INCLUDE_ATTRIBUTES⟩ []
  simp only [List.map_nil, List.nil_append, Nat.sub_zero] at hmap
  have hlen : (serializeTree t opts).selectorMap.length =
      (serializeNode t 0
        ⟨0, [], opts.previousState, opts.maxTextLength.getD 100, DEFAULT_INCLUDE_ATTRIBUTES⟩
        []).2.index := by
    show (serializeNode t 0 _ []).2.selectorMap.length = _
    rw [← List.length_map _ Prod.fst, hmap, List.length_range']
  rw [hlen]
  exact hmap

/-! Claim C6: scroll-container interactivity. -/

mutual

/-- Rewrite every node's `isScrollable` flag to `b`, leaving every
other field unchanged (used to state that scrollability contributes
nothing to index allocation). -/
def setScrollNode (b : Bool) : RawDOMNode → RawDOMNode
  | RawDOMNode.mk d cs ss cd =>
    RawDOMNode.mk { d with isScrollable := b } (setScrollList b cs) (setScrollList b ss)
      (match cd with
       | some x => some (setScrollNode b x)
       | none => none)
termination_by n => sizeOf n

/-- Map of `setScrollNode` over a node list. -/
def setScrollList (b : Bool) : List RawDOMNode → List RawDOMNode
  | [] => []
  | c :: rest => setScrollNode b c :: setScrollList b rest
termination_by l => sizeOf l

end

theorem setScrollNode_eq (b : Bool) (d : NodeData) (cs ss : List RawDOMNode)
    (cd : Option RawDOMNode) :
    setScrollNode b (RawDOMNode.mk d cs ss cd) =
      RawDOMNode.mk { d with isScrollable := b } (setScrollList b cs) (setScrollList b ss)
        (cd.map (setScrollNode b)) := by
  cases cd <;> simp [setScrollNode]

theorem setScrollList_eq_map (b : Bool) (l : List RawDOMNode) :
    setScrollList b l = l.map (setScrollNode b) := by
  induction l with
  | nil => rw [setScrollList]; rfl
  | cons c rest ih => rw [setScrollList, ih]; rfl

theorem isVisibleD_setScroll (b : Bool) (n : RawDOMNode) :
    isVisibleD (setScrollNode b n) = isVisibleD n := by
  obtain ⟨d, cs, ss, cd⟩ := n
  rw [setScrollNode_eq]
  rfl

theorem isInteractive_setScroll (b : Bool) (n : RawDOMNode) :
    isInteractive (setScrollNode b n) = isInteractive n := by
  obtain ⟨d, cs, ss, cd⟩ := n
  rw [setScrollNode_eq]
  rfl

theorem tagName_setScroll (b : Bool) (n : RawDOMNode) :
    (setScrollNode b n).tagName = n.tagName := by
  obtain ⟨d, cs, ss, cd⟩ := n
  rw [setScrollNode_eq]
  rfl

theorem nodeId_setScroll (b : Bool) (n : RawDOMNode) :
    (setScrollNode b n).nodeId = n.nodeId := by
  obtain ⟨d, cs, ss, cd⟩ := n
  rw [setScrollNode_eq]
  rfl

theorem nodeType_setScroll (b : Bool) (n : RawDOMNode) :
    (setScrollNode b n).nodeType = n.nodeType := by
  obtain ⟨d, cs, ss, cd⟩ := n
  rw [setScrollNode_eq]
  rfl

theorem attributes_setScroll (b : Bool) (n : RawDOMNode) :
    (setScrollNode b n).attributes = n.attributes := by
  obtain ⟨d, cs, ss, cd⟩ := n
  rw [setScrollNode_eq]
  rfl

theorem children_setScroll (b : Bool) (n : RawDOMNode) :
    (setScrollNode b n).children = setScrollList b n.children := by
  obtain ⟨d, cs, ss, cd⟩ := n
  rw [setScrollNode_eq]
  rfl

theorem setScrollList_append (b : Bool) (xs ys : List RawDOMNode) :
    setScrollList b (xs ++ ys) = setScrollList b xs ++ setScrollList b ys := by
  simp [setScrollList_eq_map]

theorem filter_tag_setScroll (b : Bool) (t : String) (cs : List RawDOMNode) :
    (setScrollList b cs).filter (fun c => jsToLower c.tagName == t) =
      setScrollList b (cs.filter (fun c => jsToLower c.tagName == t)) := by
  simp only [setScrollList_eq_map, List.filter_map]
  congr 1
  exact List.filter_congr (fun x _ => by simp [Function.comp, tagName_setScroll])

theorem nthOfTypeIndex_setScroll (b : Bool) (sib : List RawDOMNode) (nid : Nat) :
    nthOfTypeIndex (setScrollList b sib) nid = nthOfTypeIndex sib nid := by
  rw [nthOfTypeIndex, nthOfTypeIndex, setScrollList_eq_map]
  have h : (sib.map (setScrollNode b)).findIdx? (fun c => c.nodeId == nid) =
      sib.findIdx? (fun c => c.nodeId == nid) := by
    induction sib with
    | nil => rfl
    | cons c rest ih =>
      by_cases hc : (c.nodeId == nid) = true <;>
        simp [List.findIdx?_cons, nodeId_setScroll, hc, ih]
  rw [h]

theorem pathPartFor_setScroll (b : Bool) (prev : Option RawDOMNode)
    (current : RawDOMNode) (t : String) :
    pathPartFor (prev.map (setScrollNode b)) (setScrollNode b current) t =
      pathPartFor prev current t := by
  cases prev with
  | none => rfl
  | some parent =>
    show pathPartFor (some (setScrollNode b parent)) (setScrollNode b current) t = _
    simp only [pathPartFor]
    rw [children_setScroll, filter_tag_setScroll, nthOfTypeIndex_setScroll,
      nodeId_setScroll]
    rw [setScrollList_eq_map, List.length_map]

theorem buildPathParts_setScroll (b : Bool) :
    ∀ (path : List RawDOMNode) (prev : Option RawDOMNode) (parts : List String),
      buildPathParts (prev.map (setScrollNode b)) (setScrollList b path) parts =
        buildPathParts prev path parts := by
  intro path
  induction path with
  | nil =>
    intro prev parts
    rw [setScrollList]
    rfl
  | cons current rest ih =>
    intro prev parts
    rw [setScrollList]
    rw [buildPathParts, buildPathParts]
    rw [tagName_setScroll, nodeType_setScroll, attributes_setScroll,
      pathPartFor_setScroll]
    split_ifs
    · exact ih (some current) parts
    · exact ih (some current) _
    · exact ih (some current) _

theorem buildSelector_setScroll (b : Bool) (n : RawDOMNode) (anc : List RawDOMNode) :
    buildSelector (setScrollNode b n) (setScrollList b anc) = buildSelector n anc := by
  rw [buildSelector, buildSelector]
  rw [tagName_setScroll, nodeType_setScroll, attributes_setScroll]
  split_ifs <;> try rfl
  have hsingle : [setScrollNode b n] = setScrollList b [n] := by
    rw [setScrollList, setScrollList]
  rw [hsingle, ← setScrollList_append]
  exact congrArg _ (buildPathParts_setScroll b (anc ++ [n]) none [])

theorem serializeInteractiveStep_setScroll (b : Bool) (n : RawDOMNode)
    (ctx : SerializationContext) (anc : List RawDOMNode) :
    serializeInteractiveStep (setScrollNode b n) ctx (setScrollList b anc) =
      serializeInteractiveStep n ctx anc := by
  rw [serializeInteractiveStep, serializeInteractiveStep]
  rw [isInteractive_setScroll, buildSelector_setScroll, nodeId_setScroll]

theorem hasVisibleChildrenF_setScroll (b : Bool) (cs : List RawDOMNode) :
    hasVisibleChildrenF (setScrollList b cs) = hasVisibleChildrenF cs := by
  rw [hasVisibleChildrenF, hasVisibleChildrenF, setScrollList_eq_map, List.any_map]
  congr 1
  funext c
  simp [Function.comp, nodeType_setScroll, tagName_setScroll, isVisibleD_setScroll]

/-- The context produced by `serializeList` does not depend on the
accumulated lines; this names that context. -/
def serializeListCtx (nodes : List RawDOMNode) (d : Nat)
    (ctx : SerializationContext) (anc : List RawDOMNode) : SerializationContext :=
  (serializeList nodes d [] ctx anc).2

theorem serializeList_snd_eq_ctx (nodes : List RawDOMNode) :
    ∀ d lines ctx anc,
      (serializeList nodes d lines ctx anc).2 = serializeListCtx nodes d ctx anc := by
  induction nodes with
  | nil =>
    intro d lines ctx anc
    rw [serializeListCtx, serializeList, serializeList]
  | cons c rest ih =>
    intro d lines ctx anc
    rw [serializeListCtx, serializeList, serializeList]
    rw [ih d _ _ anc, ih d _ _ anc]

theorem serializeList_setScroll_snd (b : Bool) (nodes : List RawDOMNode)
    (h : ∀ c ∈ nodes, ∀ d ctx anc,
      (serializeNode (setScrollNode b c) d ctx (setScrollList b anc)).2 =
        (serializeNode c d ctx anc).2) :
    ∀ d ctx anc,
      serializeListCtx (setScrollList b nodes) d ctx (setScrollList b anc) =
        serializeListCtx nodes d ctx anc := by
  induction nodes with
  | nil =>
    intro d ctx anc
    rw [setScrollList, serializeListCtx, serializeListCtx, serializeList, serializeList]
  | cons c rest ih =>
    intro d ctx anc
    rw [setScrollList, serializeListCtx, serializeListCtx, serializeList, serializeList]
    rw [serializeList_snd_eq_ctx, serializeList_snd_eq_ctx]
    rw [h c (by simp) d ctx anc]
    exact ih (fun x hx => h x (by simp [hx])) d _ anc

theorem setScrollNode_mk_none (b : Bool) (d : NodeData) (cs ss : List RawDOMNode) :
    setScrollNode b (RawDOMNode.mk d cs ss none) =
      RawDOMNode.mk { d with isScrollable := b } (setScrollList b cs)
        (setScrollList b ss) none := by
  rw [setScrollNode]

theorem setScrollNode_mk_some (b : Bool) (d : NodeData) (cs ss : List RawDOMNode)
    (x : RawDOMNode) :
    setScrollNode b (RawDOMNode.mk d cs ss (some x)) =
      RawDOMNode.mk { d with isScrollable := b } (setScrollList b cs)
        (setScrollList b ss) (some (setScrollNode b x)) := by
  rw [setScrollNode]

theorem isEmpty_setScrollList (b : Bool) (l : List RawDOMNode) :
    (setScrollList b l).isEmpty = l.isEmpty := by
  cases l <;> rw [setScrollList] <;> rfl

theorem setScrollList_nil (b : Bool) : setScrollList b [] = [] := by
  rw [setScrollList]

theorem serializeNode_setScroll_snd :
    ∀ n b d ctx anc,
      (serializeNode (setScrollNode b n) d ctx (setScrollList b anc)).2 =
        (serializeNode n d ctx anc).2 := by
  intro n
  induction n using RawDOMNode.ind with
  | _ dd cs ss cd ihc ihs ihd =>
    intro b d ctx anc
    have hcs := serializeList_setScroll_snd b cs (fun c hc => ihc c hc b)
    have hss := serializeList_setScroll_snd b ss (fun s hs => ihs s hs b)
    cases cd with
    | none =>
      have hanc : setScrollList b anc ++
          [RawDOMNode.mk { dd with isScrollable := b } (setScrollList b cs)
            (setScrollList b ss) none] =
          setScrollList b (anc ++ [RawDOMNode.mk dd cs ss none]) := by
        rw [setScrollList_append]
        congr 1
        rw [setScrollList, setScrollList_nil, setScrollNode_mk_none]
      have hstep : serializeInteractiveStep
          (RawDOMNode.mk { dd with isScrollable := b } (setScrollList b cs)
            (setScrollList b ss) none) ctx (setScrollList b anc) =
          serializeInteractiveStep (RawDOMNode.mk dd cs ss none) ctx anc := by
        rw [← setScrollNode_mk_none]
        exact serializeInteractiveStep_setScroll b _ ctx anc
      have hvis : isVisibleD
          (RawDOMNode.mk { dd with isScrollable := b } (setScrollList b cs)
            (setScrollList b ss) none) =
          isVisibleD (RawDOMNode.mk dd cs ss none) := rfl
      rw [setScrollNode_mk_none]
      rw [serializeNode.eq_def, serializeNode.eq_def]
      dsimp only [RawDOMNode.nodeType, RawDOMNode.tagName, RawDOMNode.data,
        RawDOMNode.textContent, RawDOMNode.isFrame, RawDOMNode.shadowMode]
      simp only [apply_ite Prod.snd]
      simp only [hvis, hanc, hstep, hasVisibleChildrenF_setScroll, isEmpty_setScrollList,
        serializeList_snd_eq_ctx, hss, hcs]
    | some doc =>
      have hanc : setScrollList b anc ++
          [RawDOMNode.mk { dd with isScrollable := b } (setScrollList b cs)
            (setScrollList b ss) (some (setScrollNode b doc))] =
          setScrollList b (anc ++ [RawDOMNode.mk dd cs ss (some doc)]) := by
        rw [setScrollList_append]
        congr 1
        rw [setScrollList, setScrollList_nil, setScrollNode_mk_some]
      have hstep : serializeInteractiveStep
          (RawDOMNode.mk { dd with isScrollable := b } (setScrollList b cs)
            (setScrollList b ss) (some (setScrollNode b doc))) ctx (setScrollList b anc) =
          serializeInteractiveStep (RawDOMNode.mk dd cs ss (some doc)) ctx anc := by
        rw [← setScrollNode_mk_some]
        exact serializeInteractiveStep_setScroll b _ ctx anc
      have hdoc : ∀ d' ctx',
          (serializeNode (setScrollNode b doc) d' ctx' []).2 =
            (serializeNode doc d' ctx' []).2 := by
        intro d' ctx'
        have h := ihd doc rfl b d' ctx' []
        rwa [setScrollList_nil] at h
      have hvis : isVisibleD
          (RawDOMNode.mk { dd with isScrollable := b } (setScrollList b cs)
            (setScrollList b ss) (some (setScrollNode b doc))) =
          isVisibleD (RawDOMNode.mk dd cs ss (some doc)) := rfl
      rw [setScrollNode_mk_some]
      rw [serializeNode.eq_def, serializeNode.eq_def]
      dsimp only [RawDOMNode.nodeType, RawDOMNode.tagName, RawDOMNode.data,
        RawDOMNode.textContent, RawDOMNode.isFrame, RawDOMNode.shadowMode]
      simp only [apply_ite Prod.snd]
      simp only [hvis, hanc, hstep, hasVisibleChildrenF_setScroll, isEmpty_setScrollList,
        serializeList_snd_eq_ctx, Option.isSome_some, hss, hcs, hdoc]

/-- A scrollable leaf container with no children at all. -/
def c6Scroll : RawDOMNode :=
  RawDOMNode.mk
    { elData 6 "div" [] ⟨0, 0, 100, 100⟩ 1 plainStyles with
        isScrollable := true, scrollHeight := 500, clientHeight := 100 }
    [] [] none

/-- C6: a scrollable node is made interactive on account of its
scrollability only when it has zero interactive descendants — and in the
serializer, scrollability never contributes an index at all: rewriting
every node's `isScrollable` flag (in particular turning it off
everywhere) leaves the selector map of `serializeTree` unchanged. -/
theorem claim_C6_scrollable_interactivity :
    (∀ n, shouldMakeScrollableInteractive n = true → countInteractiveDescendants n = 0) ∧
    (∀ (b : Bool) (t : RawDOMNode) (opts : GetLLMTreeOptions),
      (serializeTree (setScrollNode b t) opts).selectorMap =
        (serializeTree t opts).selectorMap) := by
  constructor
  · intro n h
    by_cases hs : n.isScrollable = true
    · rw [shouldMakeScrollableInteractive, hs] at h
      simpa using h
    · rw [shouldMakeScrollableInteractive] at h
      rw [Bool.not_eq_true] at hs
      rw [hs] at h
      simp at h
  · intro b t opts
    have h := serializeNode_setScroll_snd t b 0
      ⟨0, [], opts.previousState, opts.maxTextLength.getD 100, DEFAULT_INCLUDE_ATTRIBUTES⟩ []
    rw [setScrollList_nil] at h
    exact congrArg SerializationContext.selectorMap h

/-- Witness applying C6 to the childless scrollable container. -/
theorem claim_C6_scrollable_interactivity_witness :
    countInteractiveDescendants c6Scroll = 0 :=
  claim_C6_scrollable_interactivity.1 c6Scroll (by
    simp [shouldMakeScrollableInteractive, countInteractiveDescendants,
      countInteractiveList, countInteractiveShadowList, c6Scroll, elData,
      RawDOMNode.isScrollable, RawDOMNode.data])

/-! Claims C5 and C10: visibility-filter pruning invariants and scalar preservation of both tree filters. -/

/-- The content-document contribution to `flattenTree`. -/
def flattenDoc : Option RawDOMNode → List RawDOMNode
  | some x => flattenTree x
  | none => []

theorem flattenTree_mk (d : NodeData) (cs ss : List RawDOMNode)
    (cd : Option RawDOMNode) :
    flattenTree (RawDOMNode.mk d cs ss cd) =
      RawDOMNode.mk d cs ss cd ::
        (flattenForest cs ++ flattenForest ss ++ flattenDoc cd) := by
  cases cd <;> rw [flattenTree] <;> rfl

/-- Node ids of a flattened tree. -/
def idsOf (t : RawDOMNode) : List Nat :=
  (flattenTree t).map RawDOMNode.nodeId

/-- Node ids of a flattened forest. -/
def idsForest (l : List RawDOMNode) : List Nat :=
  (flattenForest l).map RawDOMNode.nodeId

theorem mem_flattenForest {n : RawDOMNode} {l : List RawDOMNode} :
    n ∈ flattenForest l ↔ ∃ c ∈ l, n ∈ flattenTree c := by
  induction l with
  | nil => rw [flattenForest]; simp
  | cons c rest ih =>
    rw [flattenForest]
    simp [ih]

theorem self_mem_flattenTree (t : RawDOMNode) : t ∈ flattenTree t := by
  obtain ⟨d, cs, ss, cd⟩ := t
  rw [flattenTree_mk]
  exact List.mem_cons_self _ _

theorem flattenTree_trans :
    ∀ t, ∀ n ∈ flattenTree t, ∀ x ∈ flattenTree n, x ∈ flattenTree t := by
  intro t
  induction t using RawDOMNode.ind with
  | _ d cs ss cd ihc ihs ihd =>
    intro n hn x hx
    rw [flattenTree_mk] at hn ⊢
    rcases List.mem_cons.1 hn with rfl | hn
    · rw [flattenTree_mk] at hx
      exact hx
    · rcases List.mem_append.1 hn with h | h
      · rcases List.mem_append.1 h with h | h
        · obtain ⟨c, hc, hnc⟩ := mem_flattenForest.1 h
          exact List.mem_cons_of_mem _ (List.mem_append_left _ (List.mem_append_left _
            (mem_flattenForest.2 ⟨c, hc, ihc c hc n hnc x hx⟩)))
        · obtain ⟨s, hs, hns⟩ := mem_flattenForest.1 h
          exact List.mem_cons_of_mem _ (List.mem_append_left _ (List.mem_append_right _
            (mem_flattenForest.2 ⟨s, hs, ihs s hs n hns x hx⟩)))
      · cases cd with
        | none => simp [flattenDoc] at h
        | some doc =>
          exact List.mem_cons_of_mem _ (List.mem_append_right _ (ihd doc rfl n h x hx))

theorem idsForest_cons (c : RawDOMNode) (l : List RawDOMNode) :
    idsForest (c :: l) = idsOf c ++ idsForest l := by
  rw [idsForest, flattenForest, List.map_append]
  rfl

/-- The content-document contribution to `filterVisibleNodes`. -/
def fvnDoc : Option RawDOMNode → Option RawDOMNode
  | some x => filterVisibleNodes x
  | none => none

theorem filterVisibleNodes_mk (d : NodeData) (cs ss : List RawDOMNode)
    (cd : Option RawDOMNode) :
    filterVisibleNodes (RawDOMNode.mk d cs ss cd) =
      if !isVisibleD (RawDOMNode.mk d cs ss cd) then none
      else some (RawDOMNode.mk d (filterVisibleList cs) (filterVisibleList ss)
        (fvnDoc cd)) := by
  cases cd <;> rw [filterVisibleNodes] <;> rfl

theorem fvn_some_elim {d : NodeData} {cs ss : List RawDOMNode}
    {cd : Option RawDOMNode} {t' : RawDOMNode}
    (h : filterVisibleNodes (RawDOMNode.mk d cs ss cd) = some t') :
    isVisibleD (RawDOMNode.mk d cs ss cd) = true ∧
      t' = RawDOMNode.mk d (filterVisibleList cs) (filterVisibleList ss)
        (fvnDoc cd) := by
  rw [filterVisibleNodes_mk] at h
  by_cases hv : isVisibleD (RawDOMNode.mk d cs ss cd)
  · simp [hv] at h
    exact ⟨hv, h.symm⟩
  · simp [hv] at h

theorem fvn_data {t t' : RawDOMNode}
    (h : filterVisibleNodes t = some t') : t'.data = t.data := by
  obtain ⟨d, cs, ss, cd⟩ := t
  obtain ⟨-, rfl⟩ := fvn_some_elim h
  rfl

theorem fvl_ids_sub
    (l : List RawDOMNode)
    (hp : ∀ c ∈ l, ∀ c', filterVisibleNodes c = some c' →
      ∀ i ∈ idsOf c', i ∈ idsOf c) :
    ∀ i ∈ idsForest (filterVisibleList l), i ∈ idsForest l := by
  induction l with
  | nil => rw [filterVisibleList]; intro i hi; exact hi
  | cons c rest ih =>
    intro i hi
    rw [filterVisibleList] at hi
    rw [idsForest_cons]
    have hrest := ih (fun c hc => hp c (List.mem_cons_of_mem _ hc))
    cases hc : filterVisibleNodes c with
    | none =>
      rw [hc] at hi
      exact List.mem_append_right _ (hrest i hi)
    | some c' =>
      rw [hc, idsForest_cons] at hi
      rcases List.mem_append.1 hi with h | h
      · exact List.mem_append_left _ (hp c (List.mem_cons_self _ _) c' hc i h)
      · exact List.mem_append_right _ (hrest i h)

theorem fvn_ids_sub :
    ∀ t t', filterVisibleNodes t = some t' → ∀ i ∈ idsOf t', i ∈ idsOf t := by
  intro t
  induction t using RawDOMNode.ind with
  | _ d cs ss cd ihc ihs ihd =>
    intro t' h i hi
    obtain ⟨-, rfl⟩ := fvn_some_elim h
    rw [idsOf, flattenTree_mk, List.map_cons] at hi ⊢
    rcases List.mem_cons.1 hi with h0 | hi
    · exact List.mem_cons.2 (Or.inl h0)
    · refine List.mem_cons_of_mem _ ?_
      rw [List.map_append, List.map_append] at hi ⊢
      rcases List.mem_append.1 hi with h1 | h1
      · rcases List.mem_append.1 h1 with h2 | h2
        · exact List.mem_append_left _ (List.mem_append_left _
            (fvl_ids_sub cs (fun c hc => ihc c hc) i h2))
        · exact List.mem_append_left _ (List.mem_append_right _
            (fvl_ids_sub ss (fun s hs => ihs s hs) i h2))
      · cases cd with
        | none => simp [fvnDoc, flattenDoc] at h1
        | some doc =>
          refine List.mem_append_right _ ?_
          cases hdoc : filterVisibleNodes doc with
          | none => rw [fvnDoc, hdoc] at h1; simp [flattenDoc] at h1
          | some doc' =>
            rw [fvnDoc, hdoc] at h1
            exact ihd doc rfl doc' hdoc i h1

/-- Node ids of the content-document part of a flattened tree. -/
def idsDoc (cd : Option RawDOMNode) : List Nat :=
  (flattenDoc cd).map RawDOMNode.nodeId

theorem idsOf_mk (d : NodeData) (cs ss : List RawDOMNode)
    (cd : Option RawDOMNode) :
    idsOf (RawDOMNode.mk d cs ss cd) =
      d.nodeId :: (idsForest cs ++ idsForest ss ++ idsDoc cd) := by
  rw [idsOf, flattenTree_mk, List.map_cons, List.map_append, List.map_append]
  rfl

theorem idsDoc_fvn_sub :
    ∀ cd, ∀ i ∈ idsDoc (fvnDoc cd), i ∈ idsDoc cd := by
  intro cd i hi
  cases cd with
  | none => simp [fvnDoc, idsDoc, flattenDoc] at hi
  | some doc =>
    cases h : filterVisibleNodes doc with
    | none => rw [fvnDoc, h] at hi; simp [idsDoc, flattenDoc] at hi
    | some doc' =>
      rw [fvnDoc, h] at hi
      exact fvn_ids_sub doc doc' h i hi

theorem mem_ids_of_mem_flatten {x t : RawDOMNode} (hx : x ∈ flattenTree t) :
    x.nodeId ∈ idsOf t :=
  List.mem_map_of_mem _ hx

theorem fvl_pruned_absent (l : List RawDOMNode)
    (hp : ∀ c ∈ l, (idsOf c).Nodup → ∀ n ∈ flattenTree c,
      isVisibleD n = false → ∀ c', filterVisibleNodes c = some c' →
      ∀ x ∈ flattenTree n, x.nodeId ∉ idsOf c')
    (hnd : (idsForest l).Nodup) :
    ∀ n, (∃ c ∈ l, n ∈ flattenTree c) → isVisibleD n = false →
      ∀ x ∈ flattenTree n, x.nodeId ∉ idsForest (filterVisibleList l) := by
  induction l with
  | nil =>
    rintro n ⟨c, hc, -⟩
    simp at hc
  | cons c rest ih =>
    rw [idsForest_cons, List.nodup_append] at hnd
    obtain ⟨nd1, nd2, disj⟩ := hnd
    rintro n ⟨c₀, hc₀, hn⟩ hinv x hx hmem
    rw [filterVisibleList] at hmem
    have hxsub : ∀ c₁, n ∈ flattenTree c₁ → x.nodeId ∈ idsOf c₁ :=
      fun c₁ h₁ => mem_ids_of_mem_flatten (flattenTree_trans c₁ n h₁ x hx)
    have ihrest := ih (fun c' hc' => hp c' (List.mem_cons_of_mem _ hc')) nd2
    rcases List.mem_cons.1 hc₀ with rfl | hc₀
    · -- n lives inside the head tree c₀ = c
      have hxc : x.nodeId ∈ idsOf c₀ := hxsub c₀ hn
      have hnotrest : x.nodeId ∉ idsForest (filterVisibleList rest) :=
        fun hr => disj hxc (fvl_ids_sub rest (fun c' _ => fvn_ids_sub c') _ hr)
      cases hfc : filterVisibleNodes c₀ with
      | none =>
        rw [hfc] at hmem
        exact hnotrest hmem
      | some c' =>
        rw [hfc, idsForest_cons] at hmem
        rcases List.mem_append.1 hmem with h | h
        · exact hp c₀ (List.mem_cons_self _ _) nd1 n hn hinv c' hfc x hx h
        · exact hnotrest h
    · -- n lives inside the tail
      have hxrest : x.nodeId ∈ idsForest rest :=
        List.mem_map_of_mem _ (mem_flattenForest.2
          ⟨c₀, hc₀, flattenTree_trans c₀ n hn x hx⟩)
      have htail : x.nodeId ∉ idsForest (filterVisibleList rest) :=
        ihrest n ⟨c₀, hc₀, hn⟩ hinv x hx
      cases hfc : filterVisibleNodes c with
      | none =>
        rw [hfc] at hmem
        exact htail hmem
      | some c' =>
        rw [hfc, idsForest_cons] at hmem
        rcases List.mem_append.1 hmem with h | h
        · exact disj (fvn_ids_sub c c' hfc _ h) hxrest
        · exact htail h

theorem fvn_pruned_absent :
    ∀ t, (idsOf t).Nodup → ∀ n ∈ flattenTree t, isVisibleD n = false →
      ∀ t', filterVisibleNodes t = some t' →
      ∀ x ∈ flattenTree n, x.nodeId ∉ idsOf t' := by
  intro t
  induction t using RawDOMNode.ind with
  | _ d cs ss cd ihc ihs ihd =>
    intro hnd n hn hinv t' ht' x hx hmem
    obtain ⟨hv, rfl⟩ := fvn_some_elim ht'
    rw [idsOf_mk, List.nodup_cons] at hnd
    obtain ⟨hhead, hnd⟩ := hnd
    rw [List.nodup_append] at hnd
    obtain ⟨hcsss, nddoc, disjA⟩ := hnd
    rw [List.nodup_append] at hcsss
    obtain ⟨ndcs, ndss, disjCS⟩ := hcsss
    have disjCD : ∀ {i : Nat}, i ∈ idsForest cs → i ∈ idsDoc cd → False :=
      fun h1 h2 => disjA (List.mem_append_left _ h1) h2
    have disj2 : ∀ {i : Nat}, i ∈ idsForest ss → i ∈ idsDoc cd → False :=
      fun h1 h2 => disjA (List.mem_append_right _ h1) h2
    have subCS : ∀ {i : Nat}, i ∈ idsForest (filterVisibleList cs) →
        i ∈ idsForest cs := fun h => fvl_ids_sub cs (fun c _ => fvn_ids_sub c) _ h
    have subSS : ∀ {i : Nat}, i ∈ idsForest (filterVisibleList ss) →
        i ∈ idsForest ss := fun h => fvl_ids_sub ss (fun s _ => fvn_ids_sub s) _ h
    rw [flattenTree_mk] at hn
    rcases List.mem_cons.1 hn with rfl | hn
    · rw [hinv] at hv
      exact Bool.false_ne_true hv
    rw [idsOf_mk] at hmem
    have finish :
        x.nodeId ∈ idsForest cs ++ idsForest ss ++ idsDoc cd →
        x.nodeId ∉ idsForest (filterVisibleList cs) →
        x.nodeId ∉ idsForest (filterVisibleList ss) →
        x.nodeId ∉ idsDoc (fvnDoc cd) → False := by
      intro hin hc hs hd
      rcases List.mem_cons.1 hmem with h0 | hm
      · exact hhead (h0 ▸ hin)
      rcases List.mem_append.1 hm with hm | hm
      · rcases List.mem_append.1 hm with hm | hm
        · exact hc hm
        · exact hs hm
      · exact hd hm
    rcases List.mem_append.1 hn with h | h
    · rcases List.mem_append.1 h with h | h
      · -- n inside a child tree
        obtain ⟨c, hc, hnc⟩ := mem_flattenForest.1 h
        have hxB : x.nodeId ∈ idsForest cs :=
          List.mem_map_of_mem _ (mem_flattenForest.2
            ⟨c, hc, flattenTree_trans c n hnc x hx⟩)
        exact finish (List.mem_append_left _ (List.mem_append_left _ hxB))
          (fvl_pruned_absent cs (fun c' hc' => ihc c' hc') ndcs n
            ⟨c, hc, hnc⟩ hinv x hx)
          (fun hm => disjCS hxB (subSS hm))
          (fun hm => disjCD hxB (idsDoc_fvn_sub cd _ hm))
      · -- n inside a shadow-root tree
        obtain ⟨s, hs, hns⟩ := mem_flattenForest.1 h
        have hxB : x.nodeId ∈ idsForest ss :=
          List.mem_map_of_mem _ (mem_flattenForest.2
            ⟨s, hs, flattenTree_trans s n hns x hx⟩)
        exact finish (List.mem_append_left _ (List.mem_append_right _ hxB))
          (fun hm => disjCS (subCS hm) hxB)
          (fvl_pruned_absent ss (fun s' hs' => ihs s' hs') ndss n
            ⟨s, hs, hns⟩ hinv x hx)
          (fun hm => disj2 hxB (idsDoc_fvn_sub cd _ hm))
    · -- n inside the content document
      cases cd with
      | none => simp [flattenDoc] at h
      | some doc =>
        have hxB : x.nodeId ∈ idsDoc (some doc) :=
          List.mem_map_of_mem _ (flattenTree_trans doc n h x hx)
        refine finish (List.mem_append_right _ hxB)
          (fun hm => disjCD (subCS hm) hxB)
          (fun hm => disj2 (subSS hm) hxB)
          (fun hm => ?_)
        cases hdoc : filterVisibleNodes doc with
        | none => rw [fvnDoc, hdoc] at hm; simp [idsDoc, flattenDoc] at hm
        | some doc' =>
          rw [fvnDoc, hdoc] at hm
          exact ihd doc rfl nddoc n h hinv doc' hdoc x hx hm

theorem fvn_nodeId {t t' : RawDOMNode}
    (h : filterVisibleNodes t = some t') : t'.nodeId = t.nodeId := by
  rw [RawDOMNode.nodeId, RawDOMNode.nodeId, fvn_data h]

theorem fvl_map_nodeId_sublist (l : List RawDOMNode) :
    ((filterVisibleList l).map RawDOMNode.nodeId).Sublist
      (l.map RawDOMNode.nodeId) := by
  induction l with
  | nil => rw [filterVisibleList]
  | cons c rest ih =>
    rw [filterVisibleList]
    cases hc : filterVisibleNodes c with
    | none => exact (List.map_cons _ _ _) ▸ List.Sublist.cons _ ih
    | some c' =>
      rw [List.map_cons, List.map_cons, fvn_nodeId hc]
      exact List.Sublist.cons₂ _ ih

theorem mem_fvl {c' : RawDOMNode} :
    ∀ l : List RawDOMNode, c' ∈ filterVisibleList l →
      ∃ c ∈ l, filterVisibleNodes c = some c' := by
  intro l
  induction l with
  | nil => rw [filterVisibleList]; intro h; exact absurd h (List.not_mem_nil _)
  | cons c rest ih =>
    intro h
    rw [filterVisibleList] at h
    cases hc : filterVisibleNodes c with
    | none =>
      rw [hc] at h
      obtain ⟨c₀, hc₀, he⟩ := ih h
      exact ⟨c₀, List.mem_cons_of_mem _ hc₀, he⟩
    | some c₁ =>
      rw [hc] at h
      rcases List.mem_cons.1 h with rfl | h
      · exact ⟨c, List.mem_cons_self _ _, hc⟩
      · obtain ⟨c₀, hc₀, he⟩ := ih h
        exact ⟨c₀, List.mem_cons_of_mem _ hc₀, he⟩

theorem fvn_kept_children :
    ∀ t t', filterVisibleNodes t = some t' → ∀ m' ∈ flattenTree t',
      ∃ m ∈ flattenTree t, m.nodeId = m'.nodeId ∧
        (m'.children.map RawDOMNode.nodeId).Sublist
          (m.children.map RawDOMNode.nodeId) := by
  intro t
  induction t using RawDOMNode.ind with
  | _ d cs ss cd ihc ihs ihd =>
    intro t' ht' m' hm'
    obtain ⟨-, rfl⟩ := fvn_some_elim ht'
    rw [flattenTree_mk] at hm'
    rcases List.mem_cons.1 hm' with rfl | hm'
    · exact ⟨RawDOMNode.mk d cs ss cd, self_mem_flattenTree _, rfl,
        fvl_map_nodeId_sublist cs⟩
    rcases List.mem_append.1 hm' with h | h
    · rcases List.mem_append.1 h with h | h
      · obtain ⟨c', hc', hmc⟩ := mem_flattenForest.1 h
        obtain ⟨c, hc, he⟩ := mem_fvl cs hc'
        obtain ⟨m, hm, hid, hsub⟩ := ihc c hc c' he m' hmc
        refine ⟨m, ?_, hid, hsub⟩
        rw [flattenTree_mk]
        exact List.mem_cons_of_mem _ (List.mem_append_left _
          (List.mem_append_left _ (mem_flattenForest.2 ⟨c, hc, hm⟩)))
      · obtain ⟨s', hs', hms⟩ := mem_flattenForest.1 h
        obtain ⟨s, hs, he⟩ := mem_fvl ss hs'
        obtain ⟨m, hm, hid, hsub⟩ := ihs s hs s' he m' hms
        refine ⟨m, ?_, hid, hsub⟩
        rw [flattenTree_mk]
        exact List.mem_cons_of_mem _ (List.mem_append_left _
          (List.mem_append_right _ (mem_flattenForest.2 ⟨s, hs, hm⟩)))
    · cases cd with
      | none => simp [fvnDoc, flattenDoc] at h
      | some doc =>
        cases hdoc : filterVisibleNodes doc with
        | none => rw [fvnDoc, hdoc] at h; simp [flattenDoc] at h
        | some doc' =>
          rw [fvnDoc, hdoc] at h
          obtain ⟨m, hm, hid, hsub⟩ := ihd doc rfl doc' hdoc m' h
          refine ⟨m, ?_, hid, hsub⟩
          rw [flattenTree_mk]
          exact List.mem_cons_of_mem _ (List.mem_append_right _ hm)

/-- Styles of an element with `display: none`. -/
def c5NoneStyles : ComputedStyles :=
  ⟨"none", "visible", "1", "auto", "rgba(0, 0, 0, 0)", "visible", "visible", "visible", "auto"⟩

/-- A button inside the hidden branch. -/
def c5Btn : RawDOMNode := el 13 "button" [] ⟨0, 0, 50, 20⟩ 0 plainStyles []

/-- A `display: none` container holding the button. -/
def c5Hidden : RawDOMNode := el 12 "div" [] ⟨0, 0, 0, 0⟩ 0 c5NoneStyles [c5Btn]

/-- A visible sibling of the hidden branch. -/
def c5Span : RawDOMNode := el 14 "span" [] ⟨0, 0, 50, 20⟩ 0 plainStyles []

/-- Root with one hidden branch and one visible child. -/
def c5Root : RawDOMNode := el 11 "div" [] ⟨0, 0, 200, 100⟩ 0 plainStyles [c5Hidden, c5Span]

/-- Expected result of visibility filtering on `c5Root`. -/
def c5Filtered : RawDOMNode := el 11 "div" [] ⟨0, 0, 200, 100⟩ 0 plainStyles [c5Span]

/-- The flattened C5 fixture tree. -/
theorem c5_flatten : flattenTree c5Root = [c5Root, c5Hidden, c5Btn, c5Span] := by
  simp [flattenTree, flattenForest, c5Root, c5Hidden, c5Btn, c5Span, el, elData]

/-- Visibility filtering drops exactly the hidden branch of `c5Root`. -/
theorem c5_visible : filterVisibleNodes c5Root = some c5Filtered := by
  simp [filterVisibleNodes, filterVisibleList, c5Root, c5Hidden, c5Btn, c5Span,
        c5Filtered, el, elData,
        RawDOMNode.data, RawDOMNode.children, RawDOMNode.shadowRoots,
        RawDOMNode.contentDocument,
        show ∀ x ∈ [c5Root, c5Span], isVisibleD x = true from by decide,
        show ∀ x ∈ [c5Hidden], isVisibleD x = false from by decide]

/-- C5: if `filterVisibleNodes` prunes a node (invisible under the
default root context), then — over trees with distinct node ids — no
descendant of the pruned node survives anywhere in the filtered output,
and every kept node retains its remaining children in their original
relative order (the filtered child-id list is a sublist of the original
one). -/
theorem claim_C5_visibility_pruning (t t' : RawDOMNode)
    (hnd : ((flattenTree t).map RawDOMNode.nodeId).Nodup)
    (h : filterVisibleNodes t = some t') :
    (∀ n ∈ flattenTree t, isVisibleD n = false →
      ∀ x ∈ flattenTree n, x.nodeId ∉ (flattenTree t').map RawDOMNode.nodeId) ∧
    (∀ m' ∈ flattenTree t', ∃ m ∈ flattenTree t, m.nodeId = m'.nodeId ∧
      (m'.children.map RawDOMNode.nodeId).Sublist
        (m.children.map RawDOMNode.nodeId)) :=
  ⟨fun n hn hv x hx => fvn_pruned_absent t hnd n hn hv t' h x hx,
   fun m' hm' => fvn_kept_children t t' h m' hm'⟩

/-- C5 witness: on the concrete fixture the hidden branch's button id
is gone from the output and the kept root's child-id list is a sublist
of the original. -/
theorem claim_C5_visibility_pruning_witness :
    ((flattenTree c5Root).map RawDOMNode.nodeId).Nodup ∧
    filterVisibleNodes c5Root = some c5Filtered ∧
    isVisibleD c5Hidden = false ∧
    c5Btn.nodeId ∉ (flattenTree c5Filtered).map RawDOMNode.nodeId ∧
    (∃ m ∈ flattenTree c5Root, m.nodeId = c5Filtered.nodeId ∧
      (c5Filtered.children.map RawDOMNode.nodeId).Sublist
        (m.children.map RawDOMNode.nodeId)) := by
  have hfl := c5_flatten
  have hflh : flattenTree c5Hidden = [c5Hidden, c5Btn] := by
    simp [flattenTree, flattenForest, c5Hidden, c5Btn, el, elData]
  have hnd : ((flattenTree c5Root).map RawDOMNode.nodeId).Nodup := by
    rw [hfl]
    simp [c5Root, c5Hidden, c5Btn, c5Span, el, elData, RawDOMNode.nodeId, RawDOMNode.data]
  have hv := c5_visible
  have h := claim_C5_visibility_pruning c5Root c5Filtered hnd hv
  refine ⟨hnd, hv, by decide, ?_, ?_⟩
  · exact h.1 c5Hidden
      (by rw [hfl]; exact List.mem_cons_of_mem _ (List.mem_cons_self _ _))
      (by decide) c5Btn
      (by rw [hflh]; exact List.mem_cons_of_mem _ (List.mem_cons_self _ _))
  · exact h.2 c5Filtered (self_mem_flattenTree _)

/-- The content-document contribution to `fbbpProcessNode`. -/
def fbbpDoc : Option RawDOMNode → Option RawDOMNode
  | some x => some (fbbpProcessNode x none)
  | none => none

theorem fbbpProcessNode_mk (d : NodeData) (cs ss : List RawDOMNode)
    (cd : Option RawDOMNode) (anc : Option RawDOMNode) :
    fbbpProcessNode (RawDOMNode.mk d cs ss cd) anc =
      RawDOMNode.mk d
        (fbbpProcessChildren cs
          (if isPropagatingElement (RawDOMNode.mk d cs ss cd)
            then some (RawDOMNode.mk d cs ss cd) else anc)
          (if isPropagatingElement (RawDOMNode.mk d cs ss cd)
            then some (RawDOMNode.mk d cs ss cd) else anc))
        (fbbpProcessShadows ss
          (if isPropagatingElement (RawDOMNode.mk d cs ss cd)
            then some (RawDOMNode.mk d cs ss cd) else anc))
        (fbbpDoc cd) := by
  cases cd <;> rw [fbbpProcessNode] <;> rfl

theorem fbbpChildren_scalars (l : List RawDOMNode)
    (hp : ∀ c ∈ l, ∀ anc, ∀ m' ∈ flattenTree (fbbpProcessNode c anc),
      ∃ m ∈ flattenTree c, m'.data = m.data) :
    ∀ a b, ∀ m' ∈ flattenForest (fbbpProcessChildren l a b),
      ∃ c ∈ l, ∃ m ∈ flattenTree c, m'.data = m.data := by
  induction l with
  | nil =>
    intro a b m' hm'
    rw [fbbpProcessChildren, flattenForest] at hm'
    exact absurd hm' (List.not_mem_nil _)
  | cons child rest ih =>
    intro a b m' hm'
    rw [fbbpProcessChildren] at hm'
    have ihrest := ih (fun c hc => hp c (List.mem_cons_of_mem _ hc)) a b
    by_cases hskip : fbbpShouldSkip child a
    · rw [if_pos hskip] at hm'
      obtain ⟨c, hc, hit⟩ := ihrest m' hm'
      exact ⟨c, List.mem_cons_of_mem _ hc, hit⟩
    · rw [if_neg hskip, flattenForest] at hm'
      rcases List.mem_append.1 hm' with h | h
      · obtain ⟨m, hm, he⟩ := hp child (List.mem_cons_self _ _) b m' h
        exact ⟨child, List.mem_cons_self _ _, m, hm, he⟩
      · obtain ⟨c, hc, hit⟩ := ihrest m' h
        exact ⟨c, List.mem_cons_of_mem _ hc, hit⟩

theorem fbbpShadows_scalars (l : List RawDOMNode)
    (hp : ∀ s ∈ l, ∀ anc, ∀ m' ∈ flattenTree (fbbpProcessNode s anc),
      ∃ m ∈ flattenTree s, m'.data = m.data) :
    ∀ b, ∀ m' ∈ flattenForest (fbbpProcessShadows l b),
      ∃ s ∈ l, ∃ m ∈ flattenTree s, m'.data = m.data := by
  induction l with
  | nil =>
    intro b m' hm'
    rw [fbbpProcessShadows, flattenForest] at hm'
    exact absurd hm' (List.not_mem_nil _)
  | cons s rest ih =>
    intro b m' hm'
    rw [fbbpProcessShadows, flattenForest] at hm'
    have ihrest := ih (fun s' hs' => hp s' (List.mem_cons_of_mem _ hs')) b
    rcases List.mem_append.1 hm' with h | h
    · obtain ⟨m, hm, he⟩ := hp s (List.mem_cons_self _ _) b m' h
      exact ⟨s, List.mem_cons_self _ _, m, hm, he⟩
    · obtain ⟨s', hs', hit⟩ := ihrest m' h
      exact ⟨s', List.mem_cons_of_mem _ hs', hit⟩

theorem fbbp_scalars :
    ∀ t (anc : Option RawDOMNode), ∀ m' ∈ flattenTree (fbbpProcessNode t anc),
      ∃ m ∈ flattenTree t, m'.data = m.data := by
  intro t
  induction t using RawDOMNode.ind with
  | _ d cs ss cd ihc ihs ihd =>
    intro anc m' hm'
    rw [fbbpProcessNode_mk, flattenTree_mk] at hm'
    rcases List.mem_cons.1 hm' with rfl | hm'
    · exact ⟨RawDOMNode.mk d cs ss cd, self_mem_flattenTree _, rfl⟩
    rcases List.mem_append.1 hm' with h | h
    · rcases List.mem_append.1 h with h | h
      · obtain ⟨c, hc, m, hm, he⟩ := fbbpChildren_scalars cs
          (fun c' hc' => ihc c' hc') _ _ m' h
        refine ⟨m, ?_, he⟩
        rw [flattenTree_mk]
        exact List.mem_cons_of_mem _ (List.mem_append_left _
          (List.mem_append_left _ (mem_flattenForest.2 ⟨c, hc, hm⟩)))
      · obtain ⟨s, hs, m, hm, he⟩ := fbbpShadows_scalars ss
          (fun s' hs' => ihs s' hs') _ m' h
        refine ⟨m, ?_, he⟩
        rw [flattenTree_mk]
        exact List.mem_cons_of_mem _ (List.mem_append_left _
          (List.mem_append_right _ (mem_flattenForest.2 ⟨s, hs, hm⟩)))
    · cases cd with
      | none => simp [fbbpDoc, flattenDoc] at h
      | some doc =>
        rw [fbbpDoc, flattenDoc] at h
        obtain ⟨m, hm, he⟩ := ihd doc rfl none m' h
        refine ⟨m, ?_, he⟩
        rw [flattenTree_mk]
        exact List.mem_cons_of_mem _ (List.mem_append_right _ hm)

theorem fvn_scalars :
    ∀ t t', filterVisibleNodes t = some t' → ∀ m' ∈ flattenTree t',
      ∃ m ∈ flattenTree t, m'.data = m.data := by
  intro t
  induction t using RawDOMNode.ind with
  | _ d cs ss cd ihc ihs ihd =>
    intro t' ht' m' hm'
    obtain ⟨-, rfl⟩ := fvn_some_elim ht'
    rw [flattenTree_mk] at hm'
    rcases List.mem_cons.1 hm' with rfl | hm'
    · exact ⟨RawDOMNode.mk d cs ss cd, self_mem_flattenTree _, rfl⟩
    rcases List.mem_append.1 hm' with h | h
    · rcases List.mem_append.1 h with h | h
      · obtain ⟨c', hc', hmc⟩ := mem_flattenForest.1 h
        obtain ⟨c, hc, he⟩ := mem_fvl cs hc'
        obtain ⟨m, hm, hde⟩ := ihc c hc c' he m' hmc
        refine ⟨m, ?_, hde⟩
        rw [flattenTree_mk]
        exact List.mem_cons_of_mem _ (List.mem_append_left _
          (List.mem_append_left _ (mem_flattenForest.2 ⟨c, hc, hm⟩)))
      · obtain ⟨s', hs', hms⟩ := mem_flattenForest.1 h
        obtain ⟨s, hs, he⟩ := mem_fvl ss hs'
        obtain ⟨m, hm, hde⟩ := ihs s hs s' he m' hms
        refine ⟨m, ?_, hde⟩
        rw [flattenTree_mk]
        exact List.mem_cons_of_mem _ (List.mem_append_left _
          (List.mem_append_right _ (mem_flattenForest.2 ⟨s, hs, hm⟩)))
    · cases cd with
      | none => simp [fvnDoc, flattenDoc] at h
      | some doc =>
        cases hdoc : filterVisibleNodes doc with
        | none => rw [fvnDoc, hdoc] at h; simp [flattenDoc] at h
        | some doc' =>
          rw [fvnDoc, hdoc] at h
          obtain ⟨m, hm, hde⟩ := ihd doc rfl doc' hdoc m' h
          refine ⟨m, ?_, hde⟩
          rw [flattenTree_mk]
          exact List.mem_cons_of_mem _ (List.mem_append_right _ hm)

/-- C10: every node kept by `filterVisibleNodes` or by
`filterByBboxPropagation` has its scalar record — all fields other than
`children`, `shadowRoots` and `contentDocument` — unchanged from some
input node (the one sharing its `nodeId`, since `nodeId` is part of the
record). -/
theorem claim_C10_scalar_preservation :
    (∀ t t', filterVisibleNodes t = some t' → ∀ m' ∈ flattenTree t',
      ∃ m ∈ flattenTree t, m'.data = m.data) ∧
    (∀ t, ∀ m' ∈ flattenTree (filterByBboxPropagation t),
      ∃ m ∈ flattenTree t, m'.data = m.data) :=
  ⟨fun t t' h m' hm' => fvn_scalars t t' h m' hm',
   fun t m' hm' => fbbp_scalars t none m' (by
     rw [filterByBboxPropagation] at hm'
     exact hm')⟩

/-- C10 witness: on the C5 fixture both filters yield roots whose
scalar record matches an input node. -/
theorem claim_C10_scalar_preservation_witness :
    filterVisibleNodes c5Root = some c5Filtered ∧
    (∃ m ∈ flattenTree c5Root, c5Filtered.data = m.data) ∧
    (∃ m ∈ flattenTree c5Root, (filterByBboxPropagation c5Root).data = m.data) := by
  refine ⟨c5_visible, ?_, ?_⟩
  · exact claim_C10_scalar_preservation.1 c5Root c5Filtered c5_visible
      c5Filtered (self_mem_flattenTree _)
  · exact claim_C10_scalar_preservation.2 c5Root
      (filterByBboxPropagation c5Root) (self_mem_flattenTree _)

end DevBrowser
